import Mathlib

/-!
Verification development for the endpoint-extraction and scanning engine of
the Brr_phone repository (src/server/apk-analyzer.ts and src/server/routes.ts).

The JavaScript regular expressions used by the engine are embedded via a small
abstract-syntax tree (`RE`) together with a backtracking matcher that follows
the semantics of the JS regex engine on the subset of syntax the repository
uses: ordered alternation (leftmost alternative preferred), greedy quantifiers
over character classes, the end anchor, word boundaries, and numbered capture
groups.  Statefulness of `RegExp.prototype.test` under the `g` flag
(`lastIndex` advancing on a hit and resetting to 0 on a miss) is modelled
explicitly by `testG`, because the analyzer calls `.test` on `g`-flagged
patterns without resetting `lastIndex`.
-/

namespace Brr

/-- Characters that are inconvenient to write literally under this
development's style rules. -/
def sq : Char := Char.ofNat 39

def bq : Char := Char.ofNat 96

def bsl : Char := Char.ofNat 92

/-- JS `\s` restricted to the code points that occur in the analysed data
(ASCII whitespace plus NBSP and BOM). -/
def jsWs (c : Char) : Bool :=
  c = ' ' || c = '\t' || c = '\n' || c = '\r' || c.val = 11 || c.val = 12 ||
  c.val = 0xA0 || c.val = 0xFEFF

/-- JS `\w`. -/
def wCh (c : Char) : Bool := c.isAlpha || c.isDigit || c = '_'

/-- JS `.` (without the `s` flag): everything but line terminators. -/
def dotCh (c : Char) : Bool :=
  !(c = '\n' || c = '\r' || c.val = 0x2028 || c.val = 0x2029)

/-- Regex AST covering the subset of JS regex syntax used by the repository.
Quantifiers apply to character classes only, which is all the source needs. -/
inductive RE where
  | eps : RE
  | cls (p : Char → Bool) : RE
  | star (p : Char → Bool) : RE
  | rep (lo : Nat) (hi : Option Nat) (p : Char → Bool) : RE
  | cat (a b : RE) : RE
  | alt (a b : RE) : RE
  | eos : RE
  | wb : RE
  | group (idx : Nat) (r : RE) : RE

/-- Captured groups of a match: group index paired with captured characters. -/
abbrev Caps := List (Nat × List Char)

def capGet (cp : Caps) (i : Nat) : Option (List Char) :=
  (List.find? (fun x => x.1 == i) cp).map (fun x => x.2)

/-- JS word-boundary test at the position between `prev` and `s`. -/
def boundaryOk (prev : Option Char) (s : List Char) : Bool :=
  let pw := match prev with | some c => wCh c | none => false
  let nw := match s with | c :: _ => wCh c | [] => false
  pw != nw

/-- Greedy Kleene star over a character class, with backtracking into the
continuation `k` (longest consumption tried first, as JS does). -/
def starRun {σ : Type} (p : Char → Bool)
    (k : List Char → Option Char → Option σ) :
    List Char → Option Char → Option σ
  | [], prev => k [] prev
  | c :: rest, prev =>
    if p c then
      match starRun p k rest (some c) with
      | some r => some r
      | none => k (c :: rest) prev
    else k (c :: rest) prev

/-- Greedy bounded repetition (at most `fuel` further characters). -/
def starRunBdd {σ : Type} (p : Char → Bool)
    (k : List Char → Option Char → Option σ) :
    Nat → List Char → Option Char → Option σ
  | 0, s, prev => k s prev
  | _ + 1, [], prev => k [] prev
  | fuel + 1, c :: rest, prev =>
    if p c then
      match starRunBdd p k fuel rest (some c) with
      | some r => some r
      | none => k (c :: rest) prev
    else k (c :: rest) prev

/-- Consume exactly `n` characters of class `p`. -/
def forceN {σ : Type} (p : Char → Bool)
    (k : List Char → Option Char → Option σ) :
    Nat → List Char → Option Char → Option σ
  | 0, s, prev => k s prev
  | _ + 1, [], _ => none
  | n + 1, c :: rest, _ =>
    if p c then forceN p k n rest (some c) else none

/-- Backtracking matcher in continuation-passing style.  The continuation
receives the remaining input, the character just before it (for `\b`), and
the captures collected so far.  Alternatives are tried left to right and
quantifiers greedily, matching the JS engine on this syntax subset. -/
def reMatch {σ : Type} : RE → List Char → Option Char → Caps →
    (List Char → Option Char → Caps → Option σ) → Option σ
  | .eps, s, prev, cp, k => k s prev cp
  | .cls p, s, prev, cp, k =>
    match s with
    | [] => none
    | c :: rest => if p c then k rest (some c) cp else none
  | .star p, s, prev, cp, k => starRun p (fun s1 pv => k s1 pv cp) s prev
  | .rep lo hi p, s, prev, cp, k =>
    forceN p
      (fun s1 pv1 =>
        match hi with
        | none => starRun p (fun s2 pv => k s2 pv cp) s1 pv1
        | some h => starRunBdd p (fun s2 pv => k s2 pv cp) (h - lo) s1 pv1)
      lo s prev
  | .cat a b, s, prev, cp, k =>
    reMatch a s prev cp (fun s1 pv1 cp1 => reMatch b s1 pv1 cp1 k)
  | .alt a b, s, prev, cp, k =>
    match reMatch a s prev cp k with
    | some r => some r
    | none => reMatch b s prev cp k
  | .eos, s, prev, cp, k =>
    match s with
    | [] => k [] prev cp
    | _ => none
  | .wb, s, prev, cp, k => if boundaryOk prev s then k s prev cp else none
  | .group i r, s, prev, cp, k =>
    reMatch r s prev cp (fun s1 pv1 cp1 =>
      k s1 pv1 ((i, s.take (s.length - s1.length)) :: cp1))

/-- Search for the leftmost match starting at or after the current position.
`i` is the absolute index of `s` inside the original input. -/
def searchFromPos (re : RE) : Nat → List Char → Option Char →
    Option (Nat × Nat × Caps)
  | i, s, prev =>
    match reMatch re s prev []
        (fun s1 _ cp => some (s.length - s1.length, cp)) with
    | some (len, cp) => some (i, i + len, cp)
    | none =>
      match s with
      | [] => none
      | c :: rest => searchFromPos re (i + 1) rest (some c)

/-- Leftmost match of `re` in `s` at or after index `start`:
`(matchStart, matchEnd, captures)`. -/
def reSearch (re : RE) (s : List Char) (start : Nat) :
    Option (Nat × Nat × Caps) :=
  searchFromPos re start (s.drop start) (s.take start).getLast?

/-- `RegExp.prototype.test` of a `g`-flagged pattern: stateful in
`lastIndex`.  Returns the outcome and the new `lastIndex` (match end on a
hit, 0 on a miss). -/
def testG (re : RE) (s : List Char) (lastIdx : Nat) : Bool × Nat :=
  match reSearch re s lastIdx with
  | some (_, e, _) => (true, e)
  | none => (false, 0)

/-- `RegExp.prototype.test` of a pattern without the `g` flag: stateless. -/
def reTest (re : RE) (s : List Char) : Bool :=
  (reSearch re s 0).isSome

/-- One result of `exec`: absolute start and end of the full match plus the
captures. -/
structure MatchRes where
  start : Nat
  stop : Nat
  caps : Caps
deriving Repr, DecidableEq

/-- All successive `exec` results of a `g`-flagged pattern starting from
`lastIndex = 0`, as produced by the source's `while ((m = re.exec(content)))`
loops (which reset `lastIndex` beforehand).  None of the embedded patterns
can match the empty string, so the fuel bound is never the limiting factor. -/
def execAllAux (re : RE) (s : List Char) : Nat → Nat → List MatchRes
  | 0, _ => []
  | fuel + 1, i =>
    match reSearch re s i with
    | none => []
    | some (b, e, cp) =>
      { start := b, stop := e, caps := cp } :: execAllAux re s fuel (e + (if e = b then 1 else 0))

def execAll (re : RE) (s : List Char) : List MatchRes :=
  execAllAux re s (s.length + 1) 0

/-- Case-sensitive literal. -/
def cstr (t : String) : RE :=
  t.data.foldr (fun c r => RE.cat (RE.cls (fun x => x = c)) r) RE.eps

/-- Case-insensitive literal (argument written in lowercase). -/
def istr (t : String) : RE :=
  t.data.foldr (fun c r => RE.cat (RE.cls (fun x => x.toLower = c)) r) RE.eps

/-- Ordered alternation of a list of alternatives (leftmost preferred). -/
def alts : List RE → RE
  | [] => RE.cls (fun _ => false)
  | [r] => r
  | r :: rs => RE.alt r (alts rs)

def cats : List RE → RE
  | [] => RE.eps
  | [r] => r
  | r :: rs => RE.cat r (cats rs)

def ialts (ws : List String) : RE := alts (ws.map istr)

/-- JS `r?` on a subexpression: greedy option. -/
def optRE (r : RE) : RE := RE.alt r RE.eps

def opt1 (p : Char → Bool) : RE := RE.rep 0 (some 1) p

def plus1 (p : Char → Bool) : RE := RE.rep 1 none p

def wsStar : RE := RE.star jsWs

def wsPlus : RE := plus1 jsWs

def dotStar : RE := RE.star dotCh

def colonEq (c : Char) : Bool := c = ':' || c = '='

def q2 (c : Char) : Bool := c = '"' || c = sq

def q3 (c : Char) : Bool := c = '"' || c = sq || c = bq

def nq2 (c : Char) : Bool := !(q2 c)

def nq3 (c : Char) : Bool := !(q3 c)

def nq3n (c : Char) : Bool := !(q3 c) && !(c = '\n')

def cq2 : RE := RE.cls q2

def cq3 : RE := RE.cls q3

def alnumCh (c : Char) : Bool := c.isAlpha || c.isDigit

def digitCh (c : Char) : Bool := c.isDigit

/-- Substring test on character lists (JS `String.prototype.includes`). -/
def containsSub : List Char → List Char → Bool
  | _, [] => true
  | [], _ :: _ => false
  | c :: rest, sub =>
    if List.isPrefixOf sub (c :: rest) then true else containsSub rest sub

/-- Drop leading and trailing JS whitespace (JS `String.prototype.trim`). -/
def jsTrim (s : List Char) : List Char :=
  ((s.dropWhile jsWs).reverse.dropWhile jsWs).reverse

/-- JS `substring(lo, hi)` on character lists (for `lo ≤ hi`). -/
def slice (s : List Char) (lo hi : Nat) : List Char :=
  (s.drop lo).take (hi - lo)

/-!
IP-address model.  `src/server/routes.ts` delegates address parsing and CIDR
matching to the `ipaddr.js` library; the subset of its behaviour exercised by
the scanner is embedded here: dotted IPv4 notation (with the library's
hex/octal part handling and its short two-, three- and one-part forms),
canonical IPv6 notation with one `::` gap and optional embedded dotted IPv4,
conversion of IPv4-mapped IPv6 addresses, and first-`pfx`-bits CIDR matching.
Zone suffixes (`%eth0`) are not modelled.  A parse failure makes
`isPrivateIP` return `true`, exactly as the source's `catch` branch does.
-/

/-- Split a character list at every occurrence of `sep`
(JS `s.split(sep)` / `String.splitOn` for one-character separators). -/
def splitOnCh (sep : Char) : List Char → List (List Char)
  | [] => [[]]
  | c :: rest =>
    if c = sep then [] :: splitOnCh sep rest
    else
      match splitOnCh sep rest with
      | h :: t => (c :: h) :: t
      | [] => [[c]]

/-- Split a character list at every (non-overlapping, leftmost) `::`. -/
def splitOnCC : List Char → List (List Char)
  | [] => [[]]
  | ':' :: ':' :: rest => [] :: splitOnCC rest
  | c :: rest =>
    match splitOnCC rest with
    | h :: t => (c :: h) :: t
    | [] => [[c]]

def lowerData (s : String) : List Char := s.data.map Char.toLower

def hexDigitVal (c : Char) : Option Nat :=
  if c.isDigit then some (c.toNat - 48)
  else if 97 ≤ c.toLower.toNat ∧ c.toLower.toNat ≤ 102 then
    some (c.toLower.toNat - 87)
  else none

def digitsVal (base : Nat) (ok : Char → Bool) (val : Char → Nat) :
    List Char → Nat → Option Nat
  | [], acc => some acc
  | c :: rest, acc =>
    if ok c then digitsVal base ok val rest (acc * base + val c) else none

/-- Value of a nonempty decimal digit string. -/
def decNat? (s : List Char) : Option Nat :=
  match s with
  | [] => none
  | _ => digitsVal 10 Char.isDigit (fun c => c.toNat - 48) s 0

/-- Value of a nonempty hex digit string (case-insensitive). -/
def hexNat? (s : List Char) : Option Nat :=
  match s with
  | [] => none
  | _ =>
    digitsVal 16 (fun c => (hexDigitVal c).isSome)
      (fun c => (hexDigitVal c).getD 0) s 0

/-- `ipaddr.js` `parseIntAuto`: `0x…` is hex, a leading `0` followed by a
digit forces octal (rejecting digits 8 and 9), otherwise decimal. -/
def parseIntAuto (s : List Char) : Option Nat :=
  match s with
  | [] => none
  | '0' :: x :: rest =>
    if x.toLower = 'x' then hexNat? rest
    else if x.isDigit then
      digitsVal 8 (fun c => c.isDigit && c.toNat ≤ 55) (fun c => c.toNat - 48)
        (x :: rest) 0
    else none
  | _ => decNat? s

/-- `ipaddr.js` IPv4 parsing: four octets, or the three-, two- and one-part
short forms, each part in `parseIntAuto` notation, yielding a 32-bit value. -/
def parseIPv4 (s : List Char) : Option Nat :=
  let parts := (splitOnCh '.' s).map parseIntAuto
  match parts with
  | [some a, some b, some c, some d] =>
    if a ≤ 255 ∧ b ≤ 255 ∧ c ≤ 255 ∧ d ≤ 255 then
      some (((a * 256 + b) * 256 + c) * 256 + d)
    else none
  | [some a, some b, some c] =>
    if a ≤ 255 ∧ b ≤ 255 ∧ c ≤ 65535 then
      some ((a * 256 + b) * 65536 + c)
    else none
  | [some a, some b] =>
    if a ≤ 255 ∧ b ≤ 16777215 then some (a * 16777216 + b) else none
  | [some a] => if a ≤ 4294967295 then some a else none
  | _ => none

/-- A 16-bit IPv6 group: one to four hex digits. -/
def v6Group? (s : List Char) : Option Nat :=
  if s.length = 0 ∨ 4 < s.length then none else hexNat? s

/-- Strict dotted-quad decimal parse of an IPv4 address embedded at the tail
of an IPv6 address, yielding its two 16-bit groups. -/
def v4Embedded? (s : List Char) : Option (Nat × Nat) :=
  match (splitOnCh '.' s).map decNat? with
  | [some a, some b, some c, some d] =>
    if a ≤ 255 ∧ b ≤ 255 ∧ c ≤ 255 ∧ d ≤ 255 then
      some (a * 256 + b, c * 256 + d)
    else none
  | _ => none

/-- Parse a colon-separated run of IPv6 groups, where the final piece may be
an embedded dotted IPv4 address. -/
def v6Pieces? (pieces : List (List Char)) : Option (List Nat) :=
  match pieces with
  | [] => some []
  | [last] =>
    if containsSub last ['.'] then
      match v4Embedded? last with
      | some (hi, lo) => some [hi, lo]
      | none => none
    else (v6Group? last).map (fun g => [g])
  | p :: rest =>
    match v6Group? p, v6Pieces? rest with
    | some g, some gs => some (g :: gs)
    | _, _ => none

def v6FromGroups (gs : List Nat) : Option Nat :=
  if gs.length = 8 then some (gs.foldl (fun acc g => acc * 65536 + g) 0)
  else none

/-- IPv6 parse to a 128-bit value: at most one `::` gap, eight groups after
expansion, optional embedded dotted IPv4 in the last 32 bits. -/
def parseIPv6 (s : List Char) : Option Nat :=
  if containsSub s ['%'] then none
  else
    match splitOnCC s with
    | [whole] =>
      match v6Pieces? (splitOnCh ':' whole) with
      | some gs => v6FromGroups gs
      | none => none
    | [l, r] =>
      let lg := if l = [] then some [] else v6Pieces? (splitOnCh ':' l)
      let rg := if r = [] then some [] else v6Pieces? (splitOnCh ':' r)
      match lg, rg with
      | some ls, some rs =>
        if ls.length + rs.length ≤ 7 then
          v6FromGroups
            (ls ++ List.replicate (8 - ls.length - rs.length) 0 ++ rs)
        else none
      | _, _ => none
    | _ => none

inductive IPAddr where
  | v4 (n : Nat) : IPAddr
  | v6 (n : Nat) : IPAddr
deriving DecidableEq, Repr

/-- `ipaddr.parse`: IPv6 notation if it is valid, otherwise IPv4 notation,
otherwise failure. -/
def ipaddrParse (s : List Char) : Option IPAddr :=
  match parseIPv6 s with
  | some n => some (.v6 n)
  | none => (parseIPv4 s).map .v4

/-- First-`pfx`-bits CIDR comparison on `bits`-wide addresses. -/
def cidrHit (bits : Nat) (addr range pfx : Nat) : Bool :=
  addr / 2 ^ (bits - pfx) = range / 2 ^ (bits - pfx)

/-- `ipaddr.parseCIDR`. -/
def parseCIDR (s : String) : Option (IPAddr × Nat) :=
  match splitOnCh '/' s.data with
  | [a, p] =>
    match ipaddrParse a, decNat? p with
    | some ip, some n =>
      let bits := match ip with | .v4 _ => 32 | .v6 _ => 128
      if n ≤ bits then some (ip, n) else none
    | _, _ => none
  | _ => none

/-- The blocked IPv4 ranges, from the literal list in `src/server/routes.ts`
lines 83–99. -/
def blockedIPv4CIDRs : List (Nat × Nat) :=
  (["0.0.0.0/8", "10.0.0.0/8", "100.64.0.0/10", "127.0.0.0/8",
    "169.254.0.0/16", "172.16.0.0/12", "192.0.0.0/24", "192.0.2.0/24",
    "192.168.0.0/16", "198.18.0.0/15", "198.51.100.0/24", "203.0.113.0/24",
    "224.0.0.0/4", "240.0.0.0/4", "255.255.255.255/32"]).filterMap
    (fun s =>
      match parseCIDR s with
      | some (.v4 n, p) => some (n, p)
      | _ => none)

/-- The blocked IPv6 ranges, from the literal list in `src/server/routes.ts`
lines 101–112. -/
def blockedIPv6CIDRs : List (Nat × Nat) :=
  (["::/128", "::1/128", "::ffff:0:0/96", "64:ff9b::/96", "100::/64",
    "2001:db8::/32", "2001:10::/28", "fc00::/7", "fe80::/10",
    "ff00::/8"]).filterMap
    (fun s =>
      match parseCIDR s with
      | some (.v6 n, p) => some (n, p)
      | _ => none)

/-- IPv4-mapped IPv6 address (`::ffff:a.b.c.d`): upper 96 bits are
`::ffff:`. -/
def isIPv4Mapped (n : Nat) : Bool := n / 4294967296 = 65535

/-- `isPrivateIP` from `src/server/routes.ts` lines 114–130: parse, convert
an IPv4-mapped address to IPv4, match the list for the address kind, and
treat any parse failure as private (the `catch` branch returns `true`). -/
def isPrivateIP (s : String) : Bool :=
  match ipaddrParse s.data with
  | none => true
  | some ip =>
    let ip2 : IPAddr :=
      match ip with
      | .v6 n => if isIPv4Mapped n then .v4 (n % 4294967296) else .v6 n
      | .v4 n => .v4 n
    match ip2 with
    | .v4 n => blockedIPv4CIDRs.any (fun rp => cidrHit 32 n rp.1 rp.2)
    | .v6 n => blockedIPv6CIDRs.any (fun rp => cidrHit 128 n rp.1 rp.2)

/-- A strict dotted-quad decimal part as Node's `net.isIP` accepts it:
one to three digits, no superfluous leading zero, value at most 255. -/
def strictV4Part (s : List Char) : Bool :=
  s ≠ [] && s.length ≤ 3 && s.all Char.isDigit &&
  (s.length = 1 || s.headD ' ' ≠ '0') &&
  (decNat? s).getD 256 ≤ 255

/-- Node's `net.isIP`: 4 for strict dotted-quad IPv4, 6 for IPv6, else 0. -/
def isIPNum (s : String) : Nat :=
  let parts := splitOnCh '.' s.data
  if (parts.length = 4 ∧ parts.all strictV4Part) then 4
  else if (parseIPv6 s.data).isSome then 6
  else 0

/-!
SSRF-safe fetcher (`safeFetch`, `src/server/routes.ts` lines 179–205) and
the top-level redirect check of the scan-webapp handler (lines 441–449).
The WHATWG URL parse of the input is represented by its outcome
(`UrlParts`); the network and DNS are represented by an environment
(`FetchEnv`).  `redirect: "manual"` means the response comes back exactly as
the origin produced it, so the model returns `env.status` untouched.
-/

structure UrlParts where
  protocol : String
  hostname : String
deriving DecidableEq, Repr

structure FetchEnv where
  resolved : List String
  dnsFails : Bool
  status : Nat
deriving DecidableEq, Repr

inductive FetchOutcome where
  | policyViolation (msg : String) : FetchOutcome
  | dnsError : FetchOutcome
  | response (status : Nat) : FetchOutcome
deriving DecidableEq, Repr

/-- The addresses the connection would use: a literal IP hostname stands for
itself (Node's `dns.lookup` echoes literals), otherwise the resolver's
answers. -/
def lookupCandidates (u : UrlParts) (env : FetchEnv) : List String :=
  if isIPNum u.hostname ≠ 0 then [u.hostname] else env.resolved

/-- `safeFetch`: protocol allow-list, direct check of a literal IP hostname,
then the `secureLookup` path (localhost/metadata refusal, DNS resolution,
rejection of the whole lookup if any candidate address is private), and
finally the un-followed response. -/
def safeFetch (u : UrlParts) (env : FetchEnv) : FetchOutcome :=
  if ¬(u.protocol = "http:" ∨ u.protocol = "https:") then
    .policyViolation "Only HTTP/HTTPS allowed"
  else if isIPNum u.hostname ≠ 0 ∧ isPrivateIP u.hostname then
    .policyViolation "Access to private networks not allowed"
  else if lowerData u.hostname = "localhost".data ∨
      containsSub u.hostname.data "metadata".data then
    .policyViolation "Access to private networks not allowed"
  else if env.dnsFails ∧ isIPNum u.hostname = 0 then .dnsError
  else if (lookupCandidates u env).any (fun a => isPrivateIP a) then
    .policyViolation "Access to private networks not allowed"
  else .response env.status

/-- The scan-webapp handler's treatment of the top-level page fetch
(lines 441–449): a policy violation or DNS failure is surfaced as the scan's
error, a redirect status is rejected with "Redirects are not followed", any
other non-2xx status fails, and only a 2xx response lets the scan proceed. -/
def scanTop (u : UrlParts) (env : FetchEnv) : Except String Nat :=
  match safeFetch u env with
  | .policyViolation m => .error m
  | .dnsError => .error "fetch failed"
  | .response st =>
    if 300 ≤ st ∧ st < 400 then .error "Redirects are not followed"
    else if ¬(200 ≤ st ∧ st < 300) then .error "Failed to fetch"
    else .ok st

/-!
APK analyzer (`src/server/apk-analyzer.ts`).  The pattern tables below are
line-by-line transliterations of the regex literals in the source, keeping
the declared order of alternatives, families and table entries, because both
the match outcome (ordered alternation) and the control flow
(`Object.entries` iteration) depend on it.
-/

inductive Method where
  | GET | POST | PUT | PATCH | DELETE | UNKNOWN
deriving DecidableEq, Repr

inductive Confidence where
  | high | medium | low
deriving DecidableEq, Repr

inductive Severity where
  | critical | high | medium | low
deriving DecidableEq, Repr

structure ApiEndpoint where
  url : String
  method : Method
  context : String
  dbOperation : Option String
  hasPayload : Bool
  payloadIndicators : List String
  confidence : Confidence
  uiElement : Option String
  buttonText : Option String
  eventType : Option String
deriving DecidableEq, Repr

structure SecurityFinding where
  type : String
  severity : Severity
  description : String
  location : String
  evidence : Option String
deriving DecidableEq, Repr

/-- `methodPatterns.GET` (`gi`). -/
def reGET : RE := alts [
  cats [istr ".get", wsStar, istr "("],
  istr "httpget", istr "@get",
  cats [istr "method", wsStar, RE.cls colonEq, wsStar, cq2, istr "get", cq2],
  istr "request.method.get", istr "requestmethod.get",
  cats [istr "get", wsPlus, istr "request"],
  cats [istr "getmethod()", dotStar, istr "get"]]

/-- `methodPatterns.POST` (`gi`). -/
def rePOST : RE := alts [
  cats [istr ".post", wsStar, istr "("],
  istr "httppost", istr "@post",
  cats [istr "method", wsStar, RE.cls colonEq, wsStar, cq2, istr "post", cq2],
  istr "request.method.post", istr "requestmethod.post",
  cats [istr "post", wsPlus, istr "request"],
  istr "formbody", istr "multipartbody", istr "requestbody",
  istr "contenttype.application_json", istr "application/json",
  istr "x-www-form-urlencoded",
  istr "setrequestmethod(\"post\")"]

/-- `methodPatterns.PUT` (`gi`). -/
def rePUT : RE := alts [
  cats [istr ".put", wsStar, istr "("],
  istr "httpput", istr "@put",
  cats [istr "method", wsStar, RE.cls colonEq, wsStar, cq2, istr "put", cq2],
  istr "request.method.put", istr "requestmethod.put",
  cats [istr "put", wsPlus, istr "request"],
  istr "setrequestmethod(\"put\")"]

/-- `methodPatterns.PATCH` (`gi`). -/
def rePATCH : RE := alts [
  cats [istr ".patch", wsStar, istr "("],
  istr "httppatch", istr "@patch",
  cats [istr "method", wsStar, RE.cls colonEq, wsStar, cq2, istr "patch", cq2],
  istr "request.method.patch", istr "requestmethod.patch",
  cats [istr "patch", wsPlus, istr "request"],
  istr "setrequestmethod(\"patch\")"]

/-- `methodPatterns.DELETE` (`gi`). -/
def reDELETE : RE := alts [
  cats [istr ".delete", wsStar, istr "("],
  istr "httpdelete", istr "@delete",
  cats [istr "method", wsStar, RE.cls colonEq, wsStar, cq2, istr "delete", cq2],
  istr "request.method.delete", istr "requestmethod.delete",
  cats [istr "delete", wsPlus, istr "request"],
  istr "setrequestmethod(\"delete\")"]

/-- URL-path fallback cues of `determineMethod` (no flags, applied to the
lowercased URL). -/
def reDelPath : RE :=
  cats [cstr "/", alts [cstr "delete", cstr "remove", cstr "destroy",
    cstr "drop", cstr "clear"]]

def rePutPath : RE :=
  cats [cstr "/", alts [cstr "update", cstr "edit", cstr "modify",
    cstr "patch", cstr "change"]]

def rePostPath : RE :=
  cats [cstr "/", alts [cstr "create", cstr "insert", cstr "add", cstr "new",
    cstr "register", cstr "signup", cstr "submit", cstr "save", cstr "store"]]

def reGetPath : RE :=
  cats [cstr "/", alts [cstr "get", cstr "fetch", cstr "list", cstr "show",
    cstr "view", cstr "retrieve", cstr "read"]]

/-- Body-marker fallback of `determineMethod` (no flags, raw context). -/
def reBodyMarker : RE :=
  alts [cstr "FormData", cstr "RequestBody", cstr "@Body", cstr "@Field",
    cstr "JSON.stringify"]

/-- The `lastIndex` values of the five `g`-flagged method patterns. -/
structure MethodPatState where
  getIdx : Nat
  postIdx : Nat
  putIdx : Nat
  patchIdx : Nat
  delIdx : Nat
deriving DecidableEq, Repr

def initMethodState : MethodPatState := ⟨0, 0, 0, 0, 0⟩

/-- `determineMethod` (lines 282–300).  The `for … of Object.entries` loop
tests the five `g`-flagged patterns in declaration order and returns on the
first hit; every executed `.test` updates that pattern's `lastIndex`
(match end on a hit, 0 on a miss), and patterns after the hit keep theirs. -/
def determineMethod (st : MethodPatState) (context url : String) :
    Method × MethodPatState :=
  let c := context.data
  let (hitG, iG) := testG reGET c st.getIdx
  if hitG then (.GET, { st with getIdx := iG })
  else
    let (hitPo, iPo) := testG rePOST c st.postIdx
    if hitPo then (.POST, { st with getIdx := iG, postIdx := iPo })
    else
      let (hitPu, iPu) := testG rePUT c st.putIdx
      if hitPu then
        (.PUT, { st with getIdx := iG, postIdx := iPo, putIdx := iPu })
      else
        let (hitPa, iPa) := testG rePATCH c st.patchIdx
        if hitPa then
          (.PATCH, { getIdx := iG, postIdx := iPo, putIdx := iPu,
                     patchIdx := iPa, delIdx := st.delIdx })
        else
          let (hitD, iD) := testG reDELETE c st.delIdx
          let st2 : MethodPatState :=
            { getIdx := iG, postIdx := iPo, putIdx := iPu, patchIdx := iPa,
              delIdx := iD }
          if hitD then (.DELETE, st2)
          else
            let urlLower := lowerData url
            if reTest reDelPath urlLower then (.DELETE, st2)
            else if reTest rePutPath urlLower then (.PUT, st2)
            else if reTest rePostPath urlLower then (.POST, st2)
            else if reTest reGetPath urlLower then (.GET, st2)
            else if reTest reBodyMarker c then (.POST, st2)
            else (.UNKNOWN, st2)

/-- `(?:\/|$|\?|&)` after a path-segment keyword alternation (`gi`). -/
def segEnd : RE := alts [istr "/", RE.eos, istr "?", istr "&"]

def seg (ws : List String) : RE := cats [istr "/", ialts ws, segEnd]

/-- `dbOperationPatterns.INSERT` (`gi`). -/
def reDbINSERT : RE := alts [
  seg ["create", "insert", "add", "new", "register", "signup", "submit",
    "save", "store", "append", "write", "put"],
  cats [istr "action=", ialts ["create", "insert", "add", "new", "register",
    "signup"]],
  cats [istr "op=", ialts ["insert", "add", "create", "new"]],
  cats [istr "method", dotStar, ialts ["create", "insert", "add"]],
  cats [istr "create", wsPlus],
  cats [istr "insert", wsPlus, istr "into"],
  istr ".save(", istr ".insert(", istr ".create("]

/-- `dbOperationPatterns.UPDATE` (`gi`). -/
def reDbUPDATE : RE := alts [
  seg ["update", "edit", "modify", "change", "patch", "save", "put", "alter",
    "set", "revise"],
  cats [istr "action=", ialts ["update", "edit", "modify", "change",
    "patch"]],
  cats [istr "op=", ialts ["update", "edit", "modify", "patch"]],
  cats [istr "method", dotStar, ialts ["update", "edit", "modify"]],
  cats [istr "update", wsPlus, istr "set"],
  istr ".update(", istr ".modify(", istr ".edit("]

/-- `dbOperationPatterns.DELETE` (`gi`). -/
def reDbDELETE : RE := alts [
  seg ["delete", "remove", "destroy", "drop", "clear", "purge", "erase",
    "trash"],
  cats [istr "action=", ialts ["delete", "remove", "destroy", "drop"]],
  cats [istr "op=", ialts ["delete", "remove", "destroy"]],
  cats [istr "method", dotStar, ialts ["delete", "remove"]],
  cats [istr "delete", wsPlus, istr "from"],
  cats [istr "where", dotStar, istr "delete"],
  istr ".delete(", istr ".remove(", istr ".destroy("]

/-- `dbOperationPatterns.UPSERT` (`gi`). -/
def reDbUPSERT : RE := alts [
  seg ["upsert", "merge", "replace", "sync", "saveorupdate"],
  cats [istr "action=", ialts ["upsert", "merge", "sync"]],
  cats [istr "op=", ialts ["upsert", "merge"]],
  cats [istr "replace", wsPlus, istr "into"],
  cats [istr "insert", dotStar, istr "on", wsPlus, istr "duplicate"],
  istr ".upsert(", istr ".merge("]

/-- `dbOperationPatterns.BULK` (`gi`). -/
def reDbBULK : RE := alts [
  seg ["bulk", "batch", "multi", "mass", "many"],
  cats [istr "action=", ialts ["bulk", "batch", "multi"]],
  cats [istr "op=", ialts ["bulk", "batch"]],
  istr "bulkinsert", istr "bulkupdate", istr "bulkdelete",
  istr ".bulkcreate(", istr ".bulkupdate("]

/-- `dbOperationPatterns.READ` (`gi`). -/
def reDbREAD : RE := alts [
  seg ["get", "list", "fetch", "query", "search", "find", "read", "view",
    "show", "retrieve", "select", "load", "all"],
  cats [istr "action=", ialts ["get", "list", "fetch", "query", "search",
    "find"]],
  cats [istr "op=", ialts ["get", "fetch", "select", "query"]],
  cats [istr "select", wsPlus, dotStar, istr "from"],
  istr ".get(", istr ".find(", istr ".query(", istr ".search("]

/-- The `lastIndex` values of the six `g`-flagged persistence patterns. -/
structure DbPatState where
  insIdx : Nat
  updIdx : Nat
  delOpIdx : Nat
  upsIdx : Nat
  blkIdx : Nat
  readIdx : Nat
deriving DecidableEq, Repr

def initDbState : DbPatState := ⟨0, 0, 0, 0, 0, 0⟩

/-- `getDatabaseOperation` (lines 302–319): test the six `g`-flagged
persistence patterns in table order against lowercased `url ++ " " ++
context`, first hit wins; otherwise fall back to the method-default map
(POST→INSERT, PUT/PATCH→UPDATE, DELETE→DELETE, GET→READ, else none). -/
def getDatabaseOperation (st : DbPatState) (method : Method)
    (url context : String) : Option String × DbPatState :=
  let combined := lowerData url ++ (' ' :: lowerData context)
  let (hitI, iI) := testG reDbINSERT combined st.insIdx
  if hitI then (some "INSERT", { st with insIdx := iI })
  else
    let (hitU, iU) := testG reDbUPDATE combined st.updIdx
    if hitU then (some "UPDATE", { st with insIdx := iI, updIdx := iU })
    else
      let (hitD, iD) := testG reDbDELETE combined st.delOpIdx
      if hitD then
        (some "DELETE", { st with insIdx := iI, updIdx := iU, delOpIdx := iD })
      else
        let (hitUp, iUp) := testG reDbUPSERT combined st.upsIdx
        if hitUp then
          (some "UPSERT", ⟨iI, iU, iD, iUp, st.blkIdx, st.readIdx⟩)
        else
          let (hitB, iB) := testG reDbBULK combined st.blkIdx
          if hitB then
            (some "BULK", ⟨iI, iU, iD, iUp, iB, st.readIdx⟩)
          else
            let (hitR, iR) := testG reDbREAD combined st.readIdx
            let st2 : DbPatState := ⟨iI, iU, iD, iUp, iB, iR⟩
            if hitR then (some "READ", st2)
            else
              match method with
              | .POST => (some "INSERT", st2)
              | .PUT => (some "UPDATE", st2)
              | .PATCH => (some "UPDATE", st2)
              | .DELETE => (some "DELETE", st2)
              | .GET => (some "READ", st2)
              | .UNKNOWN => (none, st2)

def dashUnd (c : Char) : Bool := c = '-' || c = '_'

/-- `["']?(word|…)["']?\s*[:=]` payload key cue (`i`). -/
def kvCue (ws : List String) : RE :=
  cats [opt1 q2, ialts ws, opt1 q2, wsStar, RE.cls colonEq]

def reHasId : RE := kvCue ["id", "_id", "user_id", "post_id", "item_id",
  "object_id", "userid", "postid", "itemid", "entityid", "recordid", "pk",
  "primarykey"]

def reHasUserData : RE := kvCue ["user", "email", "username", "password",
  "name", "profile", "phone", "address", "firstname", "lastname", "fullname",
  "displayname", "nickname"]

def reHasTimestamp : RE := kvCue ["timestamp", "created_at", "updated_at",
  "date", "time", "datetime", "createdat", "updatedat", "modifiedat",
  "datecreated", "datemodified"]

def reHasFileData : RE := kvCue ["file", "image", "upload", "attachment",
  "media", "blob", "binary", "photo", "avatar", "picture", "document", "pdf"]

def reHasStatus : RE := kvCue ["status", "state", "active", "enabled",
  "published", "isactive", "ispublished", "isenabled", "isdeleted",
  "deleted", "archived"]

/-- `hasSqlKeywords` (`gi`, the only stateful payload pattern). -/
def reHasSqlKeywords : RE :=
  cats [RE.wb, ialts ["insert", "update", "delete", "select", "where", "set",
    "values", "from", "into", "join", "order", "group", "having", "limit"],
    RE.wb]

def reHasJson : RE := alts [
  cats [istr "content-type", dotStar, istr "application/json"],
  istr "json.stringify", istr "json.parse", istr "application/json",
  istr "@body", istr "requestbody"]

def reHasFormData : RE := alts [istr "formdata", istr "multipart/form-data",
  istr "x-www-form-urlencoded", istr "@field", istr "@fieldmap",
  istr "@part", istr "@partmap"]

def reHasAuth : RE := alts [istr "authorization", istr "bearer",
  istr "token", istr "jwt", istr "session", istr "cookie", istr "auth",
  cats [istr "api", opt1 dashUnd, istr "key"],
  cats [istr "access", opt1 dashUnd, istr "token"]]

def reHasPassword : RE := ialts ["password", "passwd", "pwd", "secret",
  "credentials"]

/-- `analyzePayloadContext` (lines 321–334): run the ten indicator patterns
in declaration order; each hit contributes the key name with its `has`
stripped.  `hasSqlKeywords` carries the `g` flag, so its `lastIndex` is
threaded through. -/
def analyzePayloadContext (sqlIdx : Nat) (context : String) :
    (Bool × List String) × Nat :=
  let c := context.data
  let i1 := if reTest reHasId c then ["Id"] else []
  let i2 := if reTest reHasUserData c then ["UserData"] else []
  let i3 := if reTest reHasTimestamp c then ["Timestamp"] else []
  let i4 := if reTest reHasFileData c then ["FileData"] else []
  let i5 := if reTest reHasStatus c then ["Status"] else []
  let (sqlHit, sqlIdx2) := testG reHasSqlKeywords c sqlIdx
  let i6 := if sqlHit then ["SqlKeywords"] else []
  let i7 := if reTest reHasJson c then ["Json"] else []
  let i8 := if reTest reHasFormData c then ["FormData"] else []
  let i9 := if reTest reHasAuth c then ["Auth"] else []
  let i10 := if reTest reHasPassword c then ["Password"] else []
  let inds := i1 ++ i2 ++ i3 ++ i4 ++ i5 ++ i6 ++ i7 ++ i8 ++ i9 ++ i10
  ((inds.length ≠ 0, inds), sqlIdx2)

def reBtnCue : RE := ialts ["button", "btn", "click"]

def reInputCue : RE := ialts ["input", "edit", "textfield"]

def reClickCue : RE := ialts ["onclick", "setonclicklistener", "click"]

def reSubmitCue : RE := ialts ["onsubmit", "submit"]

def reChangeCue : RE := ialts ["onchange", "textchanged"]

/-- The button-text extraction regex of `extractUiInfo` (no flags). -/
def reBtnText : RE := alts [
  cats [cstr "android:text=\"", RE.group 1 (plus1 (fun c => !(c = '"'))),
    cstr "\""],
  cats [cstr "text", RE.cls colonEq, cq2, RE.group 2 (plus1 nq2), cq2],
  cats [cstr ">", RE.group 3 (RE.rep 1 (some 50) (fun c => !(c = '<'))),
    cstr "</", RE.cls (fun c => c = 'B' || c = 'b'), cstr "utton>"]]

/-- `extractUiInfo` (lines 336–367):
`(uiElement, buttonText, eventType)`. -/
def extractUiInfo (context : String) :
    Option String × Option String × Option String :=
  let c := context.data
  let elt1 : Option String × Option String :=
    if reTest reBtnCue c then
      let txt :=
        match reSearch reBtnText c 0 with
        | some (_, _, cp) =>
          match capGet cp 1 with
          | some t => some (String.mk t)
          | none =>
            match capGet cp 2 with
            | some t => some (String.mk t)
            | none => (capGet cp 3).map String.mk
        | none => none
      (some "Button", txt)
    else (none, none)
  let elt2 : Option String :=
    if reTest reInputCue c then some "Input Field" else elt1.1
  let ev : Option String :=
    if reTest reClickCue c then some "Click"
    else if reTest reSubmitCue c then some "Submit"
    else if reTest reChangeCue c then some "Change"
    else none
  (elt2, elt1.2, ev)

/-- The confidence assignment of `analyzeApk` (lines 585–590). -/
def confidenceFor (m : Method) (dbOp : Option String)
    (inds : List String) : Confidence :=
  if (m ≠ Method.UNKNOWN ∧ dbOp.isSome = true) ∨ 3 ≤ inds.length then
    .high
  else if m = Method.UNKNOWN ∧ dbOp = none ∧ inds.length = 0 then .low
  else .medium

/-- The character class `[^\s"'\`<>)}\]\n]` of the schemed-URL patterns. -/
def urlEndCh (c : Char) : Bool :=
  !(jsWs c || q3 c || c = '<' || c = '>' || c = ')' || c = '}' || c = ']' ||
    c = '\n')

/-- The character class `[a-zA-Z0-9_\-\/\.]`. -/
def urlCls (c : Char) : Bool :=
  alnumCh c || c = '_' || c = '-' || c = '/' || c = '.'

/-- `name\s*[:=]\s*["'\`]([^"'\`\n]+)["'\`]` assignment-style URL pattern. -/
def assignPat (nm : String) : RE :=
  cats [istr nm, wsStar, RE.cls colonEq, wsStar, cq3,
    RE.group 1 (plus1 nq3n), cq3]

/-- The 26 `urlPatterns` of `analyzeApk` (lines 97–124), in declaration
order. -/
def urlPatterns : List RE := [
  cats [istr "http", opt1 (fun c => c.toLower = 's'), istr "://",
    plus1 urlEndCh],
  cats [cstr "\"", RE.group 1 (cats [cstr "/", plus1 urlCls]), cstr "\""],
  cats [RE.cls (fun c => c = sq), RE.group 1 (cats [cstr "/", plus1 urlCls]),
    RE.cls (fun c => c = sq)],
  cats [RE.cls (fun c => c = bq), RE.group 1 (cats [cstr "/", plus1 urlCls]),
    RE.cls (fun c => c = bq)],
  assignPat "endpoint",
  assignPat "url",
  assignPat "path",
  assignPat "action",
  assignPat "route",
  assignPat "uri",
  assignPat "link",
  cats [istr "@", ialts ["get", "post", "put", "delete", "patch", "head",
    "options"], wsStar, istr "(", wsStar, cq3, RE.group 1 (plus1 nq3n), cq3,
    wsStar, istr ")"],
  cats [istr "@", ialts ["url", "path", "query", "field", "fieldmap",
    "part", "partmap", "body", "header", "headers"], wsStar, istr "(",
    wsStar, cq3, RE.group 1 (plus1 nq3n), cq3, wsStar, istr ")"],
  cats [istr "fetch", wsStar, istr "(", wsStar, cq3,
    RE.group 1 (plus1 nq3n), cq3],
  cats [istr "axios.", plus1 wCh, wsStar, istr "(", wsStar, cq3,
    RE.group 1 (plus1 nq3n), cq3],
  cats [istr "$.", ialts ["get", "post", "put", "delete", "ajax"], wsStar,
    istr "(", wsStar, cq3, RE.group 1 (plus1 nq3n), cq3],
  cats [istr "new", wsPlus, istr "url", wsStar, istr "(", wsStar, cq3,
    RE.group 1 (plus1 nq3n), cq3],
  cats [istr "url", wsStar, istr "(", wsStar, cq3, RE.group 1 (plus1 nq3n),
    cq3],
  cats [istr "?", ialts ["op", "action", "method", "cmd", "operation"],
    istr "=", plus1 (fun c => alnumCh c || c = '_' || c = '-')],
  cats [istr "&", ialts ["op", "action", "method", "cmd", "operation"],
    istr "=", plus1 (fun c => alnumCh c || c = '_' || c = '-')],
  cats [ialts ["base_url", "api_url", "endpoint", "api_endpoint", "root_url",
    "server_url"], wsStar, RE.cls colonEq, wsStar, cq3,
    RE.group 1 (plus1 nq3n), cq3],
  cats [cq3, RE.group 1 (cats [RE.star nq3, istr "/api/", RE.star nq3]),
    cq3],
  cats [cq3, RE.group 1 (cats [RE.star nq3, istr "/v", plus1 digitCh,
    istr "/", RE.star nq3]), cq3],
  cats [alts [istr "ws", istr "wss"], istr "://", plus1 urlEndCh],
  cats [istr "/graphql", RE.star urlEndCh],
  cats [istr "/", ialts ["api", "rest", "service", "endpoint", "backend",
    "server"], istr "/", plus1 urlCls]]

/-- `looksLikeBackend` acceptance regexes (no flags, case-sensitive), in
source order (lines 267–279). -/
def lbRegexes : List RE := [
  cats [cstr "?", alts [cstr "op", cstr "action", cstr "method", cstr "cmd",
    cstr "operation"], cstr "="],
  cats [cstr "/", alts [cstr "api", cstr "rest",
    cats [cstr "v", plus1 digitCh], cstr "service", cstr "endpoint",
    cstr "backend", cstr "server"], cstr "/"],
  cats [cstr ".", alts [cstr "php", cstr "asp", cstr "aspx", cstr "jsp",
    cstr "cgi"], alts [cstr "?", RE.eos]],
  cats [cstr "/", alts [cstr "cgi-bin", cstr "admin", cstr "upload",
    cstr "login", cstr "auth", cstr "logout"], cstr "/"],
  cats [cstr ".", alts [cstr "json", cstr "xml"], alts [cstr "?", RE.eos]],
  cats [cstr "/", alts [cstr "graphql", cstr "webhook", cstr "socket",
    cstr "ws"]],
  cats [cstr "/", alts [cstr "create", cstr "insert", cstr "update",
    cstr "delete", cstr "remove", cstr "edit", cstr "modify", cstr "save",
    cstr "add", cstr "new", cstr "get", cstr "fetch", cstr "list",
    cstr "query", cstr "search", cstr "find"],
    alts [cstr "/", RE.eos, cstr "?"]],
  cats [cstr "/", alts [cstr "users", cstr "posts", cstr "comments",
    cstr "orders", cstr "products", cstr "customers", cstr "items",
    cstr "accounts", cstr "profiles", cstr "data", cstr "records",
    cstr "entries"],
    optRE (alts [cats [cstr "/", plus1 digitCh],
      cats [cstr "/", plus1 (fun c => c.isLower || c.isDigit || c = '-')]]),
    alts [cstr "/", RE.eos, cstr "?"]],
  cats [cstr "/", alts [cstr "database", cstr "db", cstr "storage",
    cstr "query"], cstr "/"],
  cats [RE.cls (fun c => c = '?' || c = '&'), cstr "action="]]

def startsWithStr (s pre : String) : Bool := List.isPrefixOf pre.data s.data

/-- `looksLikeBackend` of `analyzeApk` (lines 256–280): reject framework
namespaces and source-file references, otherwise accept on any of the
API-shape cues. -/
def looksLikeBackend (s : String) : Bool :=
  if startsWithStr s "android." || startsWithStr s "java." ||
      startsWithStr s "com.android." || startsWithStr s "androidx." ||
      containsSub s.data ".class".data || containsSub s.data ".kt".data ||
      containsSub s.data ".java".data then false
  else
    lbRegexes.any (fun re => reTest re s.data) ||
    (startsWithStr s "/" && decide (3 < s.data.length) &&
      reTest (cats [cstr "/", RE.cls Char.isLower]) s.data)

/-- The character filter of `url.replace(/['"\` \n\r\t]/g, "")`. -/
def quoteWsCh (c : Char) : Bool :=
  c = sq || c = '"' || c = bq || c = ' ' || c = '\n' || c = '\r' || c = '\t'

/-- Decode `\uXXXX` escapes left to right
(`url.replace(/\\u([0-9a-fA-F]{4})/g, …)`); the fuel argument (initially
the input length) only makes the recursion structural. -/
def decodeUEscF : Nat → List Char → List Char
  | 0, l => l
  | _ + 1, [] => []
  | fuel + 1, c0 :: rest =>
    if c0 = bsl then
      match rest with
      | 'u' :: h1 :: h2 :: h3 :: h4 :: rest2 =>
        match hexDigitVal h1, hexDigitVal h2, hexDigitVal h3,
            hexDigitVal h4 with
        | some a, some b, some c, some d =>
          Char.ofNat (((a * 16 + b) * 16 + c) * 16 + d) ::
            decodeUEscF fuel rest2
        | _, _, _, _ => c0 :: decodeUEscF fuel rest
      | _ => c0 :: decodeUEscF fuel rest
    else c0 :: decodeUEscF fuel rest

def decodeUEsc (l : List Char) : List Char := decodeUEscF l.length l

/-- Trailing-punctuation strip `url.replace(/[,;)}\]>]+$/, "")`. -/
def trailPunct (c : Char) : Bool :=
  c = ',' || c = ';' || c = ')' || c = '}' || c = ']' || c = '>'

/-- Leading-bracket strip `url.replace(/^[<({[]+/, "")`. -/
def leadBracket (c : Char) : Bool :=
  c = '<' || c = '(' || c = '{' || c = '['

/-- The URL post-processing of the match loop (lines 547–554): trim, remove
quote/whitespace characters, decode `\uXXXX`, strip trailing punctuation and
leading brackets. -/
def cleanupUrl (raw : List Char) : String :=
  let u1 := jsTrim raw
  let u2 := u1.filter (fun c => !(quoteWsCh c))
  let u3 := decodeUEsc u2
  let u4 := (u3.reverse.dropWhile trailPunct).reverse
  let u5 := u4.dropWhile leadBracket
  String.mk u5

/-- The rejection filter of lines 556–563. -/
def urlRejected (url : String) : Bool :=
  url.data.isEmpty || startsWithStr url "data:" ||
  startsWithStr url "javascript:" || startsWithStr url "mailto:" ||
  startsWithStr url "#" || decide (url.data.length < 4) ||
  containsSub url.data "..".data

/-- The classifier state shared across all URL matches of one `analyzeApk`
invocation: the `lastIndex` values of every `g`-flagged pattern tested via
`.test`. -/
structure ClsState where
  mSt : MethodPatState
  dSt : DbPatState
  sqlIdx : Nat
deriving DecidableEq, Repr

def initClsState : ClsState := ⟨initMethodState, initDbState, 0⟩

/-- Lines 580–603: classify one accepted URL in its ±2000-character context
and build the endpoint record, including the confidence assignment. -/
def classifyUrl (cs : ClsState) (relPath context url : String) :
    ApiEndpoint × ClsState :=
  let (m, mSt2) := determineMethod cs.mSt context url
  let (dbOp, dSt2) := getDatabaseOperation cs.dSt m url context
  let (pa, sqlIdx2) := analyzePayloadContext cs.sqlIdx context
  let (uiE, bTxt, evT) := extractUiInfo context
  ({ url := url, method := m, context := relPath, dbOperation := dbOp,
     hasPayload := pa.1, payloadIndicators := pa.2,
     confidence := confidenceFor m dbOp pa.2,
     uiElement := uiE, buttonText := bTxt, eventType := evT },
   ⟨mSt2, dSt2, sqlIdx2⟩)

/-- The per-analysis walk state: the lowercased URLs already emitted
(`seenUrls`) plus the classifier pattern state. -/
structure WalkState where
  seen : List String
  cls : ClsState
deriving DecidableEq, Repr

def initWalkState : WalkState := ⟨[], initClsState⟩

def lowerStr (s : String) : String := String.mk (lowerData s)

/-- The cleaned-up URL of one match: the capture if the pattern has one,
the whole match otherwise, post-processed per lines 547–554. -/
def pmUrl (content : List Char) (mr : MatchRes) : String :=
  cleanupUrl ((capGet mr.caps 1).getD (slice content mr.start mr.stop))

/-- The ±2000-character context window around a match (lines 576–578). -/
def pmContext (content : List Char) (mr : MatchRes) : String :=
  String.mk
    (slice content (mr.start - 2000) (min content.length (mr.start + 2000)))

/-- Lines 546–604, one iteration of the URL-match loop: take the capture (or
the whole match), clean it up, apply the rejection filter, the
backend-likeness filter and the `seenUrls` deduplication, then classify the
URL in its ±2000-character window and emit the endpoint. -/
def processMatch (content : List Char) (relPath : String) (st : WalkState)
    (mr : MatchRes) : Option ApiEndpoint × WalkState :=
  if urlRejected (pmUrl content mr) then (none, st)
  else if !(looksLikeBackend (pmUrl content mr)) then (none, st)
  else if st.seen.contains (lowerStr (pmUrl content mr)) then (none, st)
  else
    (some (classifyUrl st.cls relPath (pmContext content mr)
        (pmUrl content mr)).1,
     ⟨lowerStr (pmUrl content mr) :: st.seen,
      (classifyUrl st.cls relPath (pmContext content mr)
        (pmUrl content mr)).2⟩)

/-- Fold of `processMatch` over the successive matches of one pattern. -/
def processMatchList (content : List Char) (relPath : String) :
    List MatchRes → WalkState → List ApiEndpoint × WalkState
  | [], st => ([], st)
  | m :: ms, st =>
    match processMatch content relPath st m with
    | (none, st2) => processMatchList content relPath ms st2
    | (some e, st2) =>
      let (es, st3) := processMatchList content relPath ms st2
      (e :: es, st3)

/-- The `for (const pattern of urlPatterns)` loop over one file's content
(each pattern's `lastIndex` is reset before its `exec` loop, so `execAll`
starts from 0). -/
def runUrlPatterns (content : List Char) (relPath : String) :
    List RE → WalkState → List ApiEndpoint × WalkState
  | [], st => ([], st)
  | re :: res, st =>
    let (es1, st1) := processMatchList content relPath (execAll re content) st
    let (es2, st2) := runUrlPatterns content relPath res st1
    (es1 ++ es2, st2)

/-- The URL-extraction pass of `analyzeApk` over one text buffer. -/
def processBuffer (relPath content : String) (st : WalkState) :
    List ApiEndpoint × WalkState :=
  runUrlPatterns content.data relPath urlPatterns st

/-- The URL-extraction pass over a walk's worth of `(relPath, content)`
buffers, sharing `seenUrls` and the pattern state exactly as one
`analyzeApk` invocation does. -/
def processFiles : List (String × String) → WalkState →
    List ApiEndpoint × WalkState
  | [], st => ([], st)
  | (rp, c) :: fs, st =>
    let (es1, st1) := processBuffer rp c st
    let (es2, st2) := processFiles fs st1
    (es1 ++ es2, st2)

/-!
Aggregation: the final sorts of `analyzeApk` (lines 624–634 and 676–680)
and the endpoint deduplication of the scan-webapp handler (lines 603–606).
`localeCompare` on the ASCII strings involved is modelled as code-point
lexicographic comparison.
-/

def confRank : Confidence → Nat
  | .high => 0
  | .medium => 1
  | .low => 2

def sevRank : Severity → Nat
  | .critical => 0
  | .high => 1
  | .medium => 2
  | .low => 3

def methodStr : Method → String
  | .GET => "GET"
  | .POST => "POST"
  | .PUT => "PUT"
  | .PATCH => "PATCH"
  | .DELETE => "DELETE"
  | .UNKNOWN => "UNKNOWN"

/-- Non-positivity of the endpoint comparator of `apiEndpoints.sort`
(lines 625–634): confidence rank first, then the method string, then the
URL. -/
def epLe (a b : ApiEndpoint) : Bool :=
  if confRank a.confidence = confRank b.confidence then
    if methodStr a.method = methodStr b.method then decide (a.url ≤ b.url)
    else decide (methodStr a.method < methodStr b.method)
  else decide (confRank a.confidence < confRank b.confidence)

/-- Non-positivity of the finding comparator of `securityFindings.sort`
(lines 677–680). -/
def sevLe (a b : SecurityFinding) : Bool :=
  decide (sevRank a.severity ≤ sevRank b.severity)

/-- Insert into a sorted list, keeping `le`-sorted order (an executable
model of `Array.prototype.sort` with a consistent comparator: any correct
sort yields a `le`-sorted permutation). -/
def insLe {α : Type} (le : α → α → Bool) (x : α) : List α → List α
  | [] => [x]
  | y :: ys => if le x y then x :: y :: ys else y :: insLe le x ys

def sortLe {α : Type} (le : α → α → Bool) : List α → List α
  | [] => []
  | x :: xs => insLe le x (sortLe le xs)

/-- `apiEndpoints.sort(…)`. -/
def sortEndpoints (l : List ApiEndpoint) : List ApiEndpoint := sortLe epLe l

/-- `securityFindings.sort(…)` followed by `slice(0, 50)` (line 689). -/
def emittedSecurityFindings (l : List SecurityFinding) :
    List SecurityFinding :=
  (sortLe sevLe l).take 50

/-- One endpoint record of the scan-webapp handler (the fields its
deduplication and response construction read). -/
structure WebEndpoint where
  url : String
  method : String
  dbOperation : Option String
  source : Option String
deriving DecidableEq, Repr

/-- Lines 603–606: `allEndpoints.filter((endpoint, index, self) => index ===
self.findIndex(e => e.url === endpoint.url && e.method ===
endpoint.method))` — keep an element exactly when it is the first with its
(case-sensitive) `(url, method)` pair. -/
def uniqueEndpoints (l : List WebEndpoint) : List WebEndpoint :=
  (List.range l.length).filterMap (fun i =>
    match l.get? i with
    | some e =>
      if l.findIdx? (fun x => x.url == e.url && x.method == e.method) =
          some i then some e
      else none
    | none => none)

/-!
Security scanner, hardcoded-secrets family (`securityPatterns.
hardcodedSecrets`, lines 128–137, processed at lines 441–461): every match
increments the `hardcodedKeys` counter; a finding is pushed only when the
first capture group exists and is longer than 15 characters.
-/

def upperDigit (c : Char) : Bool := c.isUpper || c.isDigit

/-- The eight `hardcodedSecrets` patterns, in declaration order. -/
def hardcodedSecretRules : List RE := [
  cats [cq2, RE.group 1 (RE.rep 32 none alnumCh), cq2],
  cats [istr "password", wsStar, RE.cls colonEq, wsStar, cq2,
    RE.group 1 (RE.rep 4 none nq2), cq2],
  cats [istr "secret", wsStar, RE.cls colonEq, wsStar, cq2,
    RE.group 1 (RE.rep 4 none nq2), cq2],
  cats [istr "api", opt1 dashUnd, istr "key", wsStar, RE.cls colonEq,
    wsStar, cq2, RE.group 1 (RE.rep 10 none nq2), cq2],
  cats [istr "access", opt1 dashUnd, istr "token", wsStar, RE.cls colonEq,
    wsStar, cq2, RE.group 1 (RE.rep 10 none nq2), cq2],
  cats [istr "private", opt1 dashUnd, istr "key", wsStar, RE.cls colonEq,
    wsStar, cq2, RE.group 1 (RE.rep 10 none nq2), cq2],
  cats [istr "aws", opt1 dashUnd, istr "secret", wsStar, RE.cls colonEq,
    wsStar, cq2, RE.group 1 (RE.rep 10 none nq2), cq2],
  cats [cstr "AKIA", RE.rep 16 (some 16) upperDigit]]

/-- Collapse whitespace runs to single spaces
(`evidence.replace(/\s+/g, " ")`). -/
def collapseWsF : Nat → List Char → List Char
  | 0, l => l
  | _ + 1, [] => []
  | fuel + 1, c :: rest =>
    if jsWs c then ' ' :: collapseWsF fuel (rest.dropWhile jsWs)
    else c :: collapseWsF fuel rest

/-- The evidence string of a finding (lines 446–449): ±100 characters
around the match, whitespace-collapsed, trimmed, first 100 characters. -/
def mkEvidence (content : List Char) (idx : Nat) : String :=
  let win := slice content (idx - 100) (min content.length (idx + 100))
  String.mk ((jsTrim (collapseWsF win.length win)).take 100)

/-- The `hardcodedSecrets` branch body for one match (lines 451–461):
unconditionally count it; push a severity-high finding only when the first
capture exists and exceeds 15 characters. -/
def secretStep (content : List Char) (relPath : String) (mr : MatchRes) :
    Nat × List SecurityFinding :=
  match capGet mr.caps 1 with
  | some cap =>
    if 15 < cap.length then
      (1, [{ type := "Hardcoded Secret", severity := .high,
             description := "Potential hardcoded secret found (" ++
               String.mk (cap.take 10) ++ "...)",
             location := relPath,
             evidence := some (mkEvidence content mr.start) }])
    else (1, [])
  | none => (1, [])

/-- Accumulate one match's contribution onto the running
`(hardcodedKeys, findings)` pair. -/
def secretFoldStep (content : List Char) (relPath : String)
    (acc : Nat × List SecurityFinding) (mr : MatchRes) :
    Nat × List SecurityFinding :=
  (acc.1 + (secretStep content relPath mr).1,
   acc.2 ++ (secretStep content relPath mr).2)

/-- One rule's `exec` loop folded onto the accumulator. -/
def secretRuleStep (content : List Char) (relPath : String)
    (acc : Nat × List SecurityFinding) (re : RE) :
    Nat × List SecurityFinding :=
  (execAll re content).foldl (secretFoldStep content relPath) acc

/-- Process all matches of all eight secret patterns over one buffer,
accumulating the `hardcodedKeys` counter and the findings in order. -/
def scanHardcodedSecrets (relPath : String) (content : String) :
    Nat × List SecurityFinding :=
  hardcodedSecretRules.foldl (secretRuleStep content.data relPath) (0, [])

/-- Total number of secret-pattern matches in a buffer. -/
def secretMatchCount (content : String) : Nat :=
  (hardcodedSecretRules.map
    (fun re => (execAll re content.data).length)).sum

/-- A secret match whose first capture group exceeds 15 characters (the
condition under which the source pushes a finding). -/
def longSecretMatch (mr : MatchRes) : Bool :=
  match capGet mr.caps 1 with
  | some cap => decide (15 < cap.length)
  | none => false

/-- Number of secret-pattern matches whose first capture exceeds 15
characters. -/
def longSecretMatchCount (content : String) : Nat :=
  (hardcodedSecretRules.map
    (fun re => ((execAll re content.data).filter longSecretMatch).length)).sum

/-!
Scan-webapp response assembly (lines 583 and 627–634): the `scripts` field
carries every discovered script URL plus an `"inline-script"` marker when
inline scripts were found; only the list of scripts actually fetched is
truncated, to `MAX_SCRIPTS_TO_FETCH = 50`.
-/

def scanScriptsField (scriptUrls : List String)
    (inlineScriptCount : Nat) : List String :=
  scriptUrls ++ (if 0 < inlineScriptCount then ["inline-script"] else [])

def scriptsToAnalyze (scriptUrls : List String) : List String :=
  scriptUrls.take 50

/-!
Specification predicates used by the claim theorems.
-/

/-- The high-confidence condition of the spec's confidence rule. -/
def HighCond (e : ApiEndpoint) : Prop :=
  (e.method ≠ Method.UNKNOWN ∧ e.dbOperation.isSome = true) ∨
    3 ≤ e.payloadIndicators.length

/-- The low-confidence condition of the spec's confidence rule. -/
def LowCond (e : ApiEndpoint) : Prop :=
  e.method = Method.UNKNOWN ∧ e.dbOperation = none ∧
    e.payloadIndicators.length = 0

/-- The spec's exact confidence rule, as an if-and-only-if triple. -/
def ConfSpec (e : ApiEndpoint) : Prop :=
  (e.confidence = Confidence.high ↔ HighCond e) ∧
  (e.confidence = Confidence.low ↔ LowCond e) ∧
  (e.confidence = Confidence.medium ↔ ¬HighCond e ∧ ¬LowCond e)

/-- The claimed output order on endpoints: confidence tier (high before
medium before low), then method, then url, lexicographically. -/
def EpOrd (a b : ApiEndpoint) : Prop :=
  confRank a.confidence < confRank b.confidence ∨
    (confRank a.confidence = confRank b.confidence ∧
      (methodStr a.method < methodStr b.method ∨
        (methodStr a.method = methodStr b.method ∧ a.url ≤ b.url)))

/-- The claimed output order on findings: severity critical → low. -/
def SevOrd (a b : SecurityFinding) : Prop :=
  sevRank a.severity ≤ sevRank b.severity

/-- The lowercased-url key of the APK analyzer's deduplication. -/
def epKey (e : ApiEndpoint) : String := lowerStr e.url

/-- Two web endpoints collide on the exact dedup key of the scan-webapp
handler. -/
def webSameKey (a b : WebEndpoint) : Prop :=
  a.url = b.url ∧ a.method = b.method

/-!
Helper lemmas: sortedness of the insertion model of `Array.prototype.sort`.
-/

theorem mem_insLe {α : Type} (le : α → α → Bool) (x : α) (l : List α)
    (z : α) : z ∈ insLe le x l ↔ z = x ∨ z ∈ l := by
  induction l with
  | nil => simp [insLe]
  | cons y ys ih =>
    simp only [insLe]
    split <;> simp only [List.mem_cons, ih] <;> tauto

theorem pairwise_insLe {α : Type} (le : α → α → Bool)
    (tot : ∀ a b, le a b = true ∨ le b a = true)
    (tr : ∀ a b c, le a b = true → le b c = true → le a c = true)
    (x : α) (l : List α) (h : l.Pairwise (fun a b => le a b = true)) :
    (insLe le x l).Pairwise (fun a b => le a b = true) := by
  induction l with
  | nil => simp [insLe]
  | cons y ys ih =>
    rcases List.pairwise_cons.mp h with ⟨hy, hys⟩
    cases hxy : le x y with
    | true =>
      rw [insLe, if_pos hxy]
      refine List.pairwise_cons.mpr ⟨?_, h⟩
      intro z hz
      rcases List.mem_cons.mp hz with heq | hz2
      · subst heq; exact hxy
      · exact tr x y z hxy (hy z hz2)
    | false =>
      rw [insLe, if_neg (by simp [hxy])]
      refine List.pairwise_cons.mpr ⟨?_, ih hys⟩
      intro z hz
      rcases (mem_insLe le x ys z).mp hz with heq | hz2
      · subst heq
        rcases tot z y with h1 | h1
        · simp [hxy] at h1
        · exact h1
      · exact hy z hz2

theorem pairwise_sortLe {α : Type} (le : α → α → Bool)
    (tot : ∀ a b, le a b = true ∨ le b a = true)
    (tr : ∀ a b c, le a b = true → le b c = true → le a c = true)
    (l : List α) :
    (sortLe le l).Pairwise (fun a b => le a b = true) := by
  induction l with
  | nil => simp [sortLe]
  | cons x xs ih => exact pairwise_insLe le tot tr x (sortLe le xs) ih

theorem epLe_total (a b : ApiEndpoint) :
    epLe a b = true ∨ epLe b a = true := by
  unfold epLe
  by_cases hc : confRank a.confidence = confRank b.confidence
  · rw [if_pos hc, if_pos hc.symm]
    by_cases hm : methodStr a.method = methodStr b.method
    · rw [if_pos hm, if_pos hm.symm]
      simp only [decide_eq_true_eq]
      exact le_total a.url b.url
    · rw [if_neg hm, if_neg (fun h => hm h.symm)]
      simp only [decide_eq_true_eq]
      exact Ne.lt_or_lt hm
  · rw [if_neg hc, if_neg (fun h => hc h.symm)]
    simp only [decide_eq_true_eq]
    omega

theorem epLe_trans (a b c : ApiEndpoint) (h1 : epLe a b = true)
    (h2 : epLe b c = true) : epLe a c = true := by
  unfold epLe at h1 h2 ⊢
  by_cases hab : confRank a.confidence = confRank b.confidence
  · by_cases hbc : confRank b.confidence = confRank c.confidence
    · have hac : confRank a.confidence = confRank c.confidence :=
        hab.trans hbc
      rw [if_pos hab] at h1
      rw [if_pos hbc] at h2
      rw [if_pos hac]
      by_cases hmab : methodStr a.method = methodStr b.method
      · by_cases hmbc : methodStr b.method = methodStr c.method
        · have hmac : methodStr a.method = methodStr c.method :=
            hmab.trans hmbc
          rw [if_pos hmab, decide_eq_true_eq] at h1
          rw [if_pos hmbc, decide_eq_true_eq] at h2
          rw [if_pos hmac, decide_eq_true_eq]
          exact le_trans h1 h2
        · have hmac : methodStr a.method ≠ methodStr c.method :=
            fun h => hmbc (hmab.symm.trans h)
          rw [if_neg hmbc, decide_eq_true_eq] at h2
          rw [if_neg hmac, decide_eq_true_eq]
          rw [hmab]
          exact h2
      · by_cases hmbc : methodStr b.method = methodStr c.method
        · have hmac : methodStr a.method ≠ methodStr c.method :=
            fun h => hmab (h.trans hmbc.symm)
          rw [if_neg hmab, decide_eq_true_eq] at h1
          rw [if_neg hmac, decide_eq_true_eq]
          rw [← hmbc]
          exact h1
        · rw [if_neg hmab, decide_eq_true_eq] at h1
          rw [if_neg hmbc, decide_eq_true_eq] at h2
          have hlt : methodStr a.method < methodStr c.method :=
            lt_trans h1 h2
          rw [if_neg (ne_of_lt hlt), decide_eq_true_eq]
          exact hlt
    · have hac : confRank a.confidence ≠ confRank c.confidence :=
        fun h => hbc (hab.symm.trans h)
      rw [if_neg hbc, decide_eq_true_eq] at h2
      rw [if_neg hac, decide_eq_true_eq]
      omega
  · by_cases hbc : confRank b.confidence = confRank c.confidence
    · have hac : confRank a.confidence ≠ confRank c.confidence :=
        fun h => hab (h.trans hbc.symm)
      rw [if_neg hab, decide_eq_true_eq] at h1
      rw [if_neg hac, decide_eq_true_eq]
      omega
    · rw [if_neg hab, decide_eq_true_eq] at h1
      rw [if_neg hbc, decide_eq_true_eq] at h2
      have hlt : confRank a.confidence < confRank c.confidence :=
        lt_trans h1 h2
      rw [if_neg (Nat.ne_of_lt hlt), decide_eq_true_eq]
      exact hlt

theorem epLe_to_EpOrd (a b : ApiEndpoint) (h : epLe a b = true) :
    EpOrd a b := by
  unfold epLe at h
  unfold EpOrd
  by_cases hc : confRank a.confidence = confRank b.confidence
  · rw [if_pos hc] at h
    by_cases hm : methodStr a.method = methodStr b.method
    · rw [if_pos hm, decide_eq_true_eq] at h
      exact Or.inr ⟨hc, Or.inr ⟨hm, h⟩⟩
    · rw [if_neg hm, decide_eq_true_eq] at h
      exact Or.inr ⟨hc, Or.inl h⟩
  · rw [if_neg hc, decide_eq_true_eq] at h
    exact Or.inl h

theorem sevLe_total (a b : SecurityFinding) :
    sevLe a b = true ∨ sevLe b a = true := by
  unfold sevLe
  simp only [decide_eq_true_eq]
  omega

theorem sevLe_trans (a b c : SecurityFinding) (h1 : sevLe a b = true)
    (h2 : sevLe b c = true) : sevLe a c = true := by
  unfold sevLe at h1 h2 ⊢
  simp only [decide_eq_true_eq] at h1 h2 ⊢
  omega

/-!
Helper lemmas: the confidence rule.
-/

theorem confSpec_of_rule (e : ApiEndpoint)
    (hc : e.confidence =
      confidenceFor e.method e.dbOperation e.payloadIndicators) :
    ConfSpec e := by
  unfold confidenceFor at hc
  by_cases h1 : (e.method ≠ Method.UNKNOWN ∧ e.dbOperation.isSome = true) ∨
      3 ≤ e.payloadIndicators.length
  · rw [if_pos h1] at hc
    have hh : HighCond e := h1
    have hnl : ¬LowCond e := by
      rintro ⟨hm, _, hn⟩
      rcases h1 with ⟨hne, _⟩ | h3
      · exact hne hm
      · omega
    refine ⟨⟨fun _ => hh, fun _ => hc⟩, ⟨?_, fun hl => absurd hl hnl⟩,
      ⟨?_, ?_⟩⟩
    · intro hl
      rw [hc] at hl
      exact absurd hl (by decide)
    · intro hm2
      rw [hc] at hm2
      exact absurd hm2 (by decide)
    · rintro ⟨hnh, _⟩
      exact absurd hh hnh
  · rw [if_neg h1] at hc
    have hnh : ¬HighCond e := h1
    by_cases h2 : e.method = Method.UNKNOWN ∧ e.dbOperation = none ∧
        e.payloadIndicators.length = 0
    · rw [if_pos h2] at hc
      have hl : LowCond e := h2
      refine ⟨⟨?_, fun hh => absurd hh hnh⟩, ⟨fun _ => hl, fun _ => hc⟩,
        ⟨?_, ?_⟩⟩
      · intro hh
        rw [hc] at hh
        exact absurd hh (by decide)
      · intro hm2
        rw [hc] at hm2
        exact absurd hm2 (by decide)
      · rintro ⟨_, hnl2⟩
        exact absurd hl hnl2
    · rw [if_neg h2] at hc
      refine ⟨⟨?_, fun hh => absurd hh hnh⟩,
        ⟨?_, fun hl => absurd hl h2⟩, ⟨fun _ => ⟨hnh, h2⟩, fun _ => hc⟩⟩
      · intro hh
        rw [hc] at hh
        exact absurd hh (by decide)
      · intro hl
        rw [hc] at hl
        exact absurd hl (by decide)

theorem confSpec_classifyUrl (cs : ClsState) (rel ctx url : String) :
    ConfSpec (classifyUrl cs rel ctx url).1 :=
  confSpec_of_rule _ rfl

/-!
Helper lemmas: the per-match emission step and the walk folds.
-/

theorem processMatch_cases (content : List Char) (rel : String)
    (st : WalkState) (mr : MatchRes) :
    ((processMatch content rel st mr).1 = none ∧
      (processMatch content rel st mr).2.seen = st.seen) ∨
    (∃ e, (processMatch content rel st mr).1 = some e ∧
      (processMatch content rel st mr).2.seen = epKey e :: st.seen ∧
      epKey e ∉ st.seen ∧ ConfSpec e) := by
  unfold processMatch
  by_cases h1 : urlRejected (pmUrl content mr)
  · rw [if_pos h1]
    exact Or.inl ⟨rfl, rfl⟩
  · rw [if_neg h1]
    cases hlb : looksLikeBackend (pmUrl content mr) with
    | false =>
      rw [if_pos (by decide)]
      exact Or.inl ⟨rfl, rfl⟩
    | true =>
      rw [if_neg (by decide)]
      by_cases h3 : st.seen.contains (lowerStr (pmUrl content mr)) = true
      · rw [if_pos h3]
        exact Or.inl ⟨rfl, rfl⟩
      · rw [if_neg h3]
        right
        refine ⟨(classifyUrl st.cls rel (pmContext content mr)
          (pmUrl content mr)).1, rfl, rfl, ?_, confSpec_classifyUrl _ _ _ _⟩
        intro hm
        exact h3 (by simpa using hm)

theorem processMatchList_spec (content : List Char) (rel : String) :
    ∀ (ms : List MatchRes) (st : WalkState),
    (∀ k, k ∈ st.seen →
      k ∈ (processMatchList content rel ms st).2.seen) ∧
    (∀ e ∈ (processMatchList content rel ms st).1,
      epKey e ∈ (processMatchList content rel ms st).2.seen ∧
        epKey e ∉ st.seen ∧ ConfSpec e) ∧
    ((processMatchList content rel ms st).1.Pairwise
      (fun a b => epKey a ≠ epKey b)) := by
  intro ms
  induction ms with
  | nil => intro st; refine ⟨fun k h => h, by simp [processMatchList],
      by simp [processMatchList]⟩
  | cons m ms ih =>
    intro st
    have hc := processMatch_cases content rel st m
    rcases hpm : processMatch content rel st m with ⟨o, st2⟩
    rw [hpm] at hc
    rcases hc with ⟨ho, hs⟩ | ⟨e, ho, hs, hnin, hcs⟩
    · subst ho
      have hgoal : processMatchList content rel (m :: ms) st =
          processMatchList content rel ms st2 := by
        rw [processMatchList, hpm]
      rw [hgoal]
      rcases ih st2 with ⟨iha, ihb, ihc⟩
      refine ⟨fun k hk => iha k (hs ▸ hk), ?_, ihc⟩
      intro e he
      rcases ihb e he with ⟨hin, hnin, hcs⟩
      exact ⟨hin, fun hmem => hnin (hs ▸ hmem), hcs⟩
    · subst ho
      have hgoal : processMatchList content rel (m :: ms) st =
          ((e :: (processMatchList content rel ms st2).1),
            (processMatchList content rel ms st2).2) := by
        rw [processMatchList, hpm]
      rw [hgoal]
      rcases ih st2 with ⟨iha, ihb, ihc⟩
      have hkey_in : epKey e ∈ (processMatchList content rel ms st2).2.seen :=
        iha (epKey e) (by rw [hs]; exact List.mem_cons_self _ _)
      refine ⟨?_, ?_, ?_⟩
      · intro k hk
        exact iha k (by rw [hs]; exact List.mem_cons_of_mem _ hk)
      · intro f hf
        rcases List.mem_cons.mp hf with heq | hf2
        · subst heq
          exact ⟨hkey_in, hnin, hcs⟩
        · rcases ihb f hf2 with ⟨hin, hnin2, hcs2⟩
          refine ⟨hin, ?_, hcs2⟩
          intro hmem
          exact hnin2 (by rw [hs]; exact List.mem_cons_of_mem _ hmem)
      · refine List.pairwise_cons.mpr ⟨?_, ihc⟩
        intro f hf
        rcases ihb f hf with ⟨_, hnin2, _⟩
        intro hkeq
        exact hnin2 (by rw [hs, ← hkeq]; exact List.mem_cons_self _ _)

theorem seen_append_spec {es1 es2 : List ApiEndpoint}
    {s0 s1 s2 : List String}
    (h1a : ∀ k, k ∈ s0 → k ∈ s1)
    (h1b : ∀ e ∈ es1, epKey e ∈ s1 ∧ epKey e ∉ s0 ∧ ConfSpec e)
    (h1c : es1.Pairwise (fun a b => epKey a ≠ epKey b))
    (h2a : ∀ k, k ∈ s1 → k ∈ s2)
    (h2b : ∀ e ∈ es2, epKey e ∈ s2 ∧ epKey e ∉ s1 ∧ ConfSpec e)
    (h2c : es2.Pairwise (fun a b => epKey a ≠ epKey b)) :
    (∀ k, k ∈ s0 → k ∈ s2) ∧
    (∀ e ∈ es1 ++ es2, epKey e ∈ s2 ∧ epKey e ∉ s0 ∧ ConfSpec e) ∧
    ((es1 ++ es2).Pairwise (fun a b => epKey a ≠ epKey b)) := by
  refine ⟨fun k hk => h2a k (h1a k hk), ?_, ?_⟩
  · intro e he
    rcases List.mem_append.mp he with h | h
    · rcases h1b e h with ⟨hin, hnin, hcs⟩
      exact ⟨h2a _ hin, hnin, hcs⟩
    · rcases h2b e h with ⟨hin, hnin, hcs⟩
      exact ⟨hin, fun hmem => hnin (h1a _ hmem), hcs⟩
  · rw [List.pairwise_append]
    refine ⟨h1c, h2c, ?_⟩
    intro a ha b hb hkeq
    rcases h1b a ha with ⟨hin1, _, _⟩
    rcases h2b b hb with ⟨_, hnin1, _⟩
    exact hnin1 (hkeq ▸ hin1)

theorem runUrlPatterns_spec (content : List Char) (rel : String) :
    ∀ (res : List RE) (st : WalkState),
    (∀ k, k ∈ st.seen →
      k ∈ (runUrlPatterns content rel res st).2.seen) ∧
    (∀ e ∈ (runUrlPatterns content rel res st).1,
      epKey e ∈ (runUrlPatterns content rel res st).2.seen ∧
        epKey e ∉ st.seen ∧ ConfSpec e) ∧
    ((runUrlPatterns content rel res st).1.Pairwise
      (fun a b => epKey a ≠ epKey b)) := by
  intro res
  induction res with
  | nil => intro st; exact ⟨fun k h => h, by simp [runUrlPatterns],
      by simp [runUrlPatterns]⟩
  | cons re res ih =>
    intro st
    rcases processMatchList_spec content rel (execAll re content) st with
      ⟨h1a, h1b, h1c⟩
    rcases ih (processMatchList content rel (execAll re content) st).2 with
      ⟨h2a, h2b, h2c⟩
    have hgoal : runUrlPatterns content rel (re :: res) st =
        ((processMatchList content rel (execAll re content) st).1 ++
          (runUrlPatterns content rel res
            (processMatchList content rel (execAll re content) st).2).1,
         (runUrlPatterns content rel res
            (processMatchList content rel (execAll re content) st).2).2) :=
      rfl
    rw [hgoal]
    exact seen_append_spec h1a h1b h1c h2a h2b h2c

theorem processFiles_spec :
    ∀ (files : List (String × String)) (st : WalkState),
    (∀ k, k ∈ st.seen → k ∈ (processFiles files st).2.seen) ∧
    (∀ e ∈ (processFiles files st).1,
      epKey e ∈ (processFiles files st).2.seen ∧ epKey e ∉ st.seen ∧
        ConfSpec e) ∧
    ((processFiles files st).1.Pairwise
      (fun a b => epKey a ≠ epKey b)) := by
  intro files
  induction files with
  | nil => intro st; exact ⟨fun k h => h, by simp [processFiles],
      by simp [processFiles]⟩
  | cons f fs ih =>
    intro st
    rcases f with ⟨rp, c⟩
    rcases runUrlPatterns_spec c.data rp urlPatterns st with ⟨h1a, h1b, h1c⟩
    rcases ih (processBuffer rp c st).2 with ⟨h2a, h2b, h2c⟩
    have hgoal : processFiles ((rp, c) :: fs) st =
        ((processBuffer rp c st).1 ++
          (processFiles fs (processBuffer rp c st).2).1,
         (processFiles fs (processBuffer rp c st).2).2) := rfl
    rw [hgoal]
    exact seen_append_spec h1a h1b h1c h2a h2b h2c

/-!
Helper lemmas: the scan-webapp deduplication.
-/

theorem mem_uniqueEndpoints {l : List WebEndpoint} {e : WebEndpoint} :
    e ∈ uniqueEndpoints l ↔
      ∃ i, l.get? i = some e ∧
        l.findIdx? (fun x => x.url == e.url && x.method == e.method) =
          some i := by
  unfold uniqueEndpoints
  rw [List.mem_filterMap]
  constructor
  · rintro ⟨i, _, hgi⟩
    rcases hg : l.get? i with _ | e0
    · rw [hg] at hgi
      cases hgi
    · rw [hg] at hgi
      have hgi2 : (if l.findIdx?
          (fun x => x.url == e0.url && x.method == e0.method) = some i then
            some e0 else none) = some e := hgi
      split at hgi2
      · rcases Option.some.inj hgi2 with heq
        subst heq
        rename_i hf
        exact ⟨i, hg, hf⟩
      · cases hgi2
  · rintro ⟨i, hget, hfind⟩
    have hlt : i < l.length := by
      by_contra hc
      push_neg at hc
      rw [List.get?_eq_none.mpr hc] at hget
      cases hget
    refine ⟨i, List.mem_range.mpr hlt, ?_⟩
    rw [hget]
    show (if l.findIdx? (fun x => x.url == e.url && x.method == e.method) =
        some i then some e else none) = some e
    rw [if_pos hfind]

theorem uniqueEndpoints_pairwise (l : List WebEndpoint) :
    (uniqueEndpoints l).Pairwise (fun a b => ¬webSameKey a b) := by
  unfold uniqueEndpoints
  refine List.Pairwise.filterMap _ ?_ (List.pairwise_lt_range l.length)
  intro i j hij a ha b hb hkey
  rw [Option.mem_def] at ha hb
  have hfa : l.findIdx? (fun x => x.url == a.url && x.method == a.method) =
      some i := by
    rcases hg : l.get? i with _ | e0
    · rw [hg] at ha; cases ha
    · rw [hg] at ha
      have ha2 : (if l.findIdx?
          (fun x => x.url == e0.url && x.method == e0.method) = some i then
            some e0 else none) = some a := ha
      split at ha2
      · rcases Option.some.inj ha2 with heq
        subst heq
        rename_i hf
        exact hf
      · cases ha2
  have hfb : l.findIdx? (fun x => x.url == b.url && x.method == b.method) =
      some j := by
    rcases hg : l.get? j with _ | e0
    · rw [hg] at hb; cases hb
    · rw [hg] at hb
      have hb2 : (if l.findIdx?
          (fun x => x.url == e0.url && x.method == e0.method) = some j then
            some e0 else none) = some b := hb
      split at hb2
      · rcases Option.some.inj hb2 with heq
        subst heq
        rename_i hf
        exact hf
      · cases hb2
  have hpe : (fun x : WebEndpoint => x.url == b.url && x.method == b.method)
      = (fun x : WebEndpoint => x.url == a.url && x.method == a.method) := by
    rw [hkey.1, hkey.2]
  rw [hpe] at hfb
  rw [hfa] at hfb
  rcases Option.some.inj hfb with heq
  omega

theorem find?_of_findIdx? {α : Type} (p : α → Bool) :
    ∀ (l : List α) (i : Nat) (e : α), l.findIdx? p = some i →
      l.get? i = some e → l.find? p = some e := by
  intro l
  induction l with
  | nil => intro i e h; cases h
  | cons x xs ih =>
    intro i e hfind hget
    have hfind2 : (if p x then some 0 else (xs.findIdx? p).map (· + 1)) =
        some i := by
      rw [← hfind]
      simp [List.findIdx?_cons]
    cases hp : p x with
    | true =>
      rw [hp, if_pos rfl] at hfind2
      rcases Option.some.inj hfind2 with hi
      subst hi
      simp only [List.get?] at hget
      rcases Option.some.inj hget with he
      subst he
      exact List.find?_cons_of_pos xs hp
    | false =>
      rw [hp, if_neg (by simp)] at hfind2
      rw [Option.map_eq_some'] at hfind2
      rcases hfind2 with ⟨j, hj, hij⟩
      subst hij
      simp only [List.get?] at hget
      rw [List.find?_cons_of_neg xs (by simp [hp])]
      exact ih j e hj hget

/-!
Helper lemmas: the hardcoded-secrets branch.
-/

theorem secretStep_count (c : List Char) (r : String) (mr : MatchRes) :
    (secretStep c r mr).1 = 1 := by
  unfold secretStep
  rcases capGet mr.caps 1 with _ | cap
  · rfl
  · dsimp only
    split <;> rfl

theorem secretStep_len (c : List Char) (r : String) (mr : MatchRes) :
    (secretStep c r mr).2.length = if longSecretMatch mr then 1 else 0 := by
  unfold secretStep longSecretMatch
  rcases capGet mr.caps 1 with _ | cap
  · rfl
  · dsimp only
    by_cases h : 15 < cap.length
    · rw [if_pos h]
      simp [h]
    · rw [if_neg h]
      simp [h]

theorem secretStep_fields (c : List Char) (r : String) (mr : MatchRes) :
    ∀ f ∈ (secretStep c r mr).2,
      f.severity = Severity.high ∧ f.type = "Hardcoded Secret" := by
  unfold secretStep
  rcases capGet mr.caps 1 with _ | cap
  · intro f hf; cases hf
  · dsimp only
    split
    · intro f hf
      rcases List.mem_singleton.mp hf with heq
      subst heq
      exact ⟨rfl, rfl⟩
    · intro f hf; cases hf

theorem secretFoldStep_spec (c : List Char) (r : String) :
    ∀ (ms : List MatchRes) (acc : Nat × List SecurityFinding),
    (ms.foldl (secretFoldStep c r) acc).1 = acc.1 + ms.length ∧
    (ms.foldl (secretFoldStep c r) acc).2.length =
      acc.2.length + (ms.filter longSecretMatch).length ∧
    (∀ f ∈ (ms.foldl (secretFoldStep c r) acc).2,
      f ∈ acc.2 ∨
        (f.severity = Severity.high ∧ f.type = "Hardcoded Secret")) := by
  intro ms
  induction ms with
  | nil =>
    intro acc
    exact ⟨rfl, by simp, fun f hf => Or.inl hf⟩
  | cons m ms ih =>
    intro acc
    have hstep : secretFoldStep c r acc m =
        (acc.1 + (secretStep c r m).1, acc.2 ++ (secretStep c r m).2) := rfl
    have hfold : (m :: ms).foldl (secretFoldStep c r) acc =
        ms.foldl (secretFoldStep c r) (secretFoldStep c r acc m) := rfl
    rcases ih (secretFoldStep c r acc m) with ⟨iha, ihb, ihc⟩
    refine ⟨?_, ?_, ?_⟩
    · rw [hfold, iha, hstep, secretStep_count]
      simp [List.length_cons]
      omega
    · rw [hfold, ihb, hstep]
      simp only [List.length_append, secretStep_len]
      rw [List.filter_cons]
      by_cases h : longSecretMatch m = true
      · rw [if_pos h, if_pos h]
        simp
        omega
      · rw [if_neg h, if_neg (by simpa using h)]
        omega
    · intro f hf
      rcases ihc f (by rw [hfold] at hf; exact hf) with hin | hprop
      · rw [hstep] at hin
        rcases List.mem_append.mp hin with hin2 | hin2
        · exact Or.inl hin2
        · exact Or.inr (secretStep_fields c r m f hin2)
      · exact Or.inr hprop

theorem secretRules_spec (c : List Char) (r : String) :
    ∀ (rules : List RE) (acc : Nat × List SecurityFinding),
    (rules.foldl (secretRuleStep c r) acc).1 =
      acc.1 + (rules.map (fun re => (execAll re c).length)).sum ∧
    (rules.foldl (secretRuleStep c r) acc).2.length =
      acc.2.length +
        (rules.map
          (fun re => ((execAll re c).filter longSecretMatch).length)).sum ∧
    (∀ f ∈ (rules.foldl (secretRuleStep c r) acc).2,
      f ∈ acc.2 ∨
        (f.severity = Severity.high ∧ f.type = "Hardcoded Secret")) := by
  intro rules
  induction rules with
  | nil =>
    intro acc
    exact ⟨by simp, by simp, fun f hf => Or.inl hf⟩
  | cons re rules ih =>
    intro acc
    have hfold : (re :: rules).foldl (secretRuleStep c r) acc =
        rules.foldl (secretRuleStep c r) (secretRuleStep c r acc re) := rfl
    rcases secretFoldStep_spec c r (execAll re c) acc with ⟨ha, hb, hc⟩
    rcases ih (secretRuleStep c r acc re) with ⟨iha, ihb, ihc⟩
    refine ⟨?_, ?_, ?_⟩
    · rw [hfold, iha]
      have : (secretRuleStep c r acc re).1 = acc.1 + (execAll re c).length :=
        ha
      rw [this]
      simp [List.map_cons, List.sum_cons]
      omega
    · rw [hfold, ihb]
      have : (secretRuleStep c r acc re).2.length =
          acc.2.length + ((execAll re c).filter longSecretMatch).length := hb
      rw [this]
      simp [List.map_cons, List.sum_cons]
      omega
    · intro f hf
      rcases ihc f (by rw [hfold] at hf; exact hf) with hin | hprop
      · rcases hc f hin with hin2 | hprop2
        · exact Or.inl hin2
        · exact Or.inr hprop2
      · exact Or.inr hprop

/-!
Claim theorems.
-/

/-- Claim C1: `safeFetch` rejects with a policy violation any URL whose
scheme is not http or https, any literal target address in a blocked range,
and any hostname whose resolution yields a blocked address; a response is
always the origin's own (redirects are never followed), and a top-level 3xx
response makes the scan-webapp handler reject the scan with "Redirects are
not followed" instead of chasing it. -/
theorem safeFetch_policy_spec (u : UrlParts) (env : FetchEnv) :
    (¬(u.protocol = "http:" ∨ u.protocol = "https:") →
      safeFetch u env = .policyViolation "Only HTTP/HTTPS allowed") ∧
    ((isIPNum u.hostname ≠ 0 ∧ isPrivateIP u.hostname = true) →
      ∃ m, safeFetch u env = .policyViolation m) ∧
    ((∃ a ∈ lookupCandidates u env, isPrivateIP a = true) →
      ∀ st, safeFetch u env ≠ .response st) ∧
    (∀ st, safeFetch u env = .response st → st = env.status) ∧
    (safeFetch u env = .response env.status → 300 ≤ env.status →
      env.status < 400 →
      scanTop u env = .error "Redirects are not followed") := by
  refine ⟨?_, ?_, ?_, ?_, ?_⟩
  · intro hp
    unfold safeFetch
    rw [if_pos hp]
  · intro hc
    unfold safeFetch
    by_cases h1 : ¬(u.protocol = "http:" ∨ u.protocol = "https:")
    · rw [if_pos h1]
      exact ⟨_, rfl⟩
    · rw [if_neg h1, if_pos hc]
      exact ⟨_, rfl⟩
  · rintro ⟨a, ha, hpa⟩ st
    unfold safeFetch
    split_ifs with h1 h2 h3 h4 h5 <;> intro hEq <;>
      first
        | exact FetchOutcome.noConfusion hEq
        | exact absurd (List.any_eq_true.mpr ⟨a, ha, hpa⟩) (by assumption)
  · intro st h
    unfold safeFetch at h
    split_ifs at h <;>
      first
        | exact absurd h (fun h2 => FetchOutcome.noConfusion h2)
        | exact (FetchOutcome.response.inj h).symm
  · intro hresp h3 h4
    unfold scanTop
    rw [hresp]
    show (if 300 ≤ env.status ∧ env.status < 400 then
        Except.error "Redirects are not followed"
      else if ¬(200 ≤ env.status ∧ env.status < 300) then
        Except.error "Failed to fetch"
      else Except.ok env.status) = Except.error "Redirects are not followed"
    rw [if_pos ⟨h3, h4⟩]

/-- Witness for C1 at concrete inputs: an ftp URL is refused with the exact
policy message, a blocked literal target is refused, a hostname resolving to
10.0.0.5 never yields a response, and a 301 top-level response rejects the
scan. -/
theorem safeFetch_policy_spec_witness :
    safeFetch ⟨"ftp:", "example.com"⟩ ⟨["93.184.216.34"], false, 200⟩ =
      .policyViolation "Only HTTP/HTTPS allowed" ∧
    (∃ m, safeFetch ⟨"http:", "127.0.0.1"⟩ ⟨[], false, 200⟩ =
      .policyViolation m) ∧
    (∀ st,
      safeFetch ⟨"http:", "internal.example"⟩ ⟨["10.0.0.5"], false, 200⟩ ≠
        .response st) ∧
    scanTop ⟨"http:", "example.com"⟩ ⟨["93.184.216.34"], false, 301⟩ =
      .error "Redirects are not followed" :=
  ⟨(safeFetch_policy_spec ⟨"ftp:", "example.com"⟩
      ⟨["93.184.216.34"], false, 200⟩).1 (by decide),
   (safeFetch_policy_spec ⟨"http:", "127.0.0.1"⟩ ⟨[], false, 200⟩).2.1
      ⟨by decide, by decide⟩,
   (safeFetch_policy_spec ⟨"http:", "internal.example"⟩
      ⟨["10.0.0.5"], false, 200⟩).2.2.1 ⟨"10.0.0.5", by decide, by decide⟩,
   (safeFetch_policy_spec ⟨"http:", "example.com"⟩
      ⟨["93.184.216.34"], false, 301⟩).2.2.2.2 (by decide) (by decide)
      (by decide)⟩

/-- Claim C2: the blocked-address predicate returns true for 127.0.0.1,
true for 10.0.0.5, false for 8.8.8.8, true for ::1 and false for
2606:4700::1. -/
theorem isPrivateIP_table :
    isPrivateIP "127.0.0.1" = true ∧ isPrivateIP "10.0.0.5" = true ∧
    isPrivateIP "8.8.8.8" = false ∧ isPrivateIP "::1" = true ∧
    isPrivateIP "2606:4700::1" = false := by decide

/-- Claim C3: every endpoint emitted by the analyzer's URL-extraction pass
has confidence high exactly when (method ≠ UNKNOWN and a persistence
operation was found) or the payload-indicator count is at least 3,
confidence low exactly when the method is UNKNOWN with no persistence
operation and no indicators, and confidence medium exactly otherwise. -/
theorem confidence_rule_spec (files : List (String × String))
    (st : WalkState) (e : ApiEndpoint)
    (he : e ∈ (processFiles files st).1) :
    (e.confidence = Confidence.high ↔
      ((e.method ≠ Method.UNKNOWN ∧ e.dbOperation.isSome = true) ∨
        3 ≤ e.payloadIndicators.length)) ∧
    (e.confidence = Confidence.low ↔
      (e.method = Method.UNKNOWN ∧ e.dbOperation = none ∧
        e.payloadIndicators.length = 0)) ∧
    (e.confidence = Confidence.medium ↔
      (¬((e.method ≠ Method.UNKNOWN ∧ e.dbOperation.isSome = true) ∨
          3 ≤ e.payloadIndicators.length) ∧
        ¬(e.method = Method.UNKNOWN ∧ e.dbOperation = none ∧
          e.payloadIndicators.length = 0))) :=
  ((processFiles_spec files st).2.1 e he).2.2

/-- Witness for C3: the confidence rule instantiated on the endpoint the
pipeline emits for a buffer containing only the quoted literal
"/api/users/42". -/
theorem confidence_rule_spec_witness :
    (((processFiles [("f.js", "\"/api/users/42\"")] initWalkState).1.headD
        ⟨"", Method.UNKNOWN, "", none, false, [], Confidence.low, none,
          none, none⟩).confidence = Confidence.low ↔
      (((processFiles [("f.js", "\"/api/users/42\"")] initWalkState).1.headD
        ⟨"", Method.UNKNOWN, "", none, false, [], Confidence.low, none,
          none, none⟩).method = Method.UNKNOWN ∧
       ((processFiles [("f.js", "\"/api/users/42\"")] initWalkState).1.headD
        ⟨"", Method.UNKNOWN, "", none, false, [], Confidence.low, none,
          none, none⟩).dbOperation = none ∧
       ((processFiles [("f.js", "\"/api/users/42\"")] initWalkState).1.headD
        ⟨"", Method.UNKNOWN, "", none, false, [], Confidence.low, none,
          none, none⟩).payloadIndicators.length = 0)) :=
  (confidence_rule_spec [("f.js", "\"/api/users/42\"")] initWalkState _
    (by decide)).2.1

/-- Claim C4 counterexample: the scan-webapp deduplication is
case-sensitive, so two endpoints whose URLs differ only in letter case both
survive even though they share the same (lowercase url, method) key. -/
theorem webDedup_lowercase_collision :
    uniqueEndpoints [⟨"http://h/API/x", "GET", none, none⟩,
        ⟨"http://h/api/x", "GET", none, none⟩] =
      [⟨"http://h/API/x", "GET", none, none⟩,
        ⟨"http://h/api/x", "GET", none, none⟩] ∧
    lowerStr "http://h/API/x" = lowerStr "http://h/api/x" ∧
    ("http://h/API/x" : String) ≠ "http://h/api/x" := by decide

/-- Claim C4 (amended): the APK analyzer deduplicates by lowercased URL
alone, so no two of its emitted endpoints share a lowercased URL (hence
none share the (lowercase url, method) key); the web scan deduplicates by
the exact case-sensitive (url, method) pair, the first-seen record
surviving. -/
theorem dedup_amended_spec :
    (∀ (files : List (String × String)) (st : WalkState),
      ((processFiles files st).1.Pairwise
        (fun a b => lowerStr a.url ≠ lowerStr b.url))) ∧
    (∀ l : List WebEndpoint,
      (uniqueEndpoints l).Pairwise (fun a b => ¬webSameKey a b)) ∧
    (∀ (l : List WebEndpoint) (e : WebEndpoint), e ∈ uniqueEndpoints l →
      l.find? (fun x => x.url == e.url && x.method == e.method) =
        some e) := by
  refine ⟨?_, uniqueEndpoints_pairwise, ?_⟩
  · intro files st
    exact (processFiles_spec files st).2.2
  · intro l e he
    rcases mem_uniqueEndpoints.mp he with ⟨i, hget, hfind⟩
    exact find?_of_findIdx? _ l i e hfind hget

/-- Witness for C4 (amended) at concrete inputs. -/
theorem dedup_amended_spec_witness :
    ((processFiles [("f.js", "\"/api/users/42\"")] initWalkState).1.Pairwise
      (fun a b => lowerStr a.url ≠ lowerStr b.url)) ∧
    ((uniqueEndpoints [⟨"u", "GET", none, none⟩,
        ⟨"u", "GET", none, none⟩]).Pairwise
      (fun a b => ¬webSameKey a b)) ∧
    ([(⟨"u", "GET", none, none⟩ : WebEndpoint),
        ⟨"u", "POST", none, none⟩].find?
      (fun x => x.url == "u" && x.method == "GET") =
        some ⟨"u", "GET", none, none⟩) :=
  ⟨dedup_amended_spec.1 [("f.js", "\"/api/users/42\"")] initWalkState,
   dedup_amended_spec.2.1 [⟨"u", "GET", none, none⟩,
     ⟨"u", "GET", none, none⟩],
   dedup_amended_spec.2.2 [⟨"u", "GET", none, none⟩,
     ⟨"u", "POST", none, none⟩] ⟨"u", "GET", none, none⟩ (by decide)⟩

/-- Claim C5: the emitted endpoint list comes out sorted by confidence
(high, then medium, then low), then method, then url, lexicographically,
and the emitted (top-50) security-findings list comes out sorted by
severity from critical to low. -/
theorem result_ordering_spec (eps : List ApiEndpoint)
    (finds : List SecurityFinding) :
    (sortEndpoints eps).Pairwise EpOrd ∧
    (emittedSecurityFindings finds).Pairwise SevOrd := by
  constructor
  · exact (pairwise_sortLe epLe epLe_total epLe_trans eps).imp
      (fun hab => epLe_to_EpOrd _ _ hab)
  · have h2 : (sortLe sevLe finds).Pairwise SevOrd :=
      (pairwise_sortLe sevLe sevLe_total sevLe_trans finds).imp
        (fun hab => of_decide_eq_true hab)
    exact h2.sublist (List.take_sublist _ _)

/-- Claim C6 counterexample: on a buffer containing only the quoted literal
"/api/users/42", the single emitted endpoint has method UNKNOWN but carries
no persistence operation at all (not READ) and confidence low (not
medium). -/
theorem scenarioC_actual :
    (processBuffer "f.js" "\"/api/users/42\"" initWalkState).1 =
      [⟨"/api/users/42", Method.UNKNOWN, "f.js", none, false, [],
        Confidence.low, none, none, none⟩] ∧
    (none : Option String) ≠ some "READ" ∧
    Confidence.low ≠ Confidence.medium := by decide

/-- Claim C6 (amended): that buffer yields exactly one endpoint, with method
UNKNOWN, no persistence operation (the method-default map has no entry for
UNKNOWN), an empty indicator set, and confidence low. -/
theorem scenarioC_amended :
    (processBuffer "f.js" "\"/api/users/42\"" initWalkState).1 =
      [⟨"/api/users/42", Method.UNKNOWN, "f.js", none, false, [],
        Confidence.low, none, none, none⟩] := by decide

/-- Claim C7: `determineMethod` is not idempotent, because the `g`-flagged
method patterns keep their `lastIndex` between calls: on the context
"HttpGet" the first call answers GET and the identical second call answers
UNKNOWN. -/
theorem determineMethod_not_idempotent :
    (determineMethod initMethodState "HttpGet" "/api/items").1 =
      Method.GET ∧
    (determineMethod
        (determineMethod initMethodState "HttpGet" "/api/items").2
        "HttpGet" "/api/items").1 = Method.UNKNOWN := by decide

/-- Claim C8 counterexample: the buffer `password = "abcd"` matches a
hardcoded-secret pattern (the counter reaches 1) but produces no finding,
because the capture has 15 or fewer characters. -/
theorem hardcodedSecret_short_capture :
    scanHardcodedSecrets "f.txt" "password = \"abcd\"" = (1, []) := by
  decide

/-- Claim C8 (amended): every hardcoded-secret match increments the
`hardcodedKeys` counter, while a severity-high "Hardcoded Secret" finding
is produced exactly for the matches whose first capture group exists and
exceeds 15 characters. -/
theorem hardcodedSecret_amended_spec (rel content : String) :
    (scanHardcodedSecrets rel content).1 = secretMatchCount content ∧
    (scanHardcodedSecrets rel content).2.length =
      longSecretMatchCount content ∧
    (∀ f ∈ (scanHardcodedSecrets rel content).2,
      f.severity = Severity.high ∧ f.type = "Hardcoded Secret") := by
  rcases secretRules_spec content.data rel hardcodedSecretRules (0, [])
    with ⟨ha, hb, hc⟩
  refine ⟨?_, ?_, ?_⟩
  · rw [scanHardcodedSecrets, ha]
    simp [secretMatchCount]
  · rw [scanHardcodedSecrets, hb]
    simp [longSecretMatchCount]
  · intro f hf
    rcases hc f hf with hin | hprop
    · cases hin
    · exact hprop

/-- Witness for C8 (amended) on a buffer holding a 32-character secret. -/
theorem hardcodedSecret_amended_witness :
    (scanHardcodedSecrets "f"
        "secret = \"ABCDEFGHIJKLMNOPQRSTUVWXYZ123456\"").1 =
      secretMatchCount "secret = \"ABCDEFGHIJKLMNOPQRSTUVWXYZ123456\"" ∧
    ((scanHardcodedSecrets "f"
        "secret = \"ABCDEFGHIJKLMNOPQRSTUVWXYZ123456\"").2.headD
      ⟨"", Severity.low, "", "", none⟩).severity = Severity.high :=
  ⟨(hardcodedSecret_amended_spec "f"
      "secret = \"ABCDEFGHIJKLMNOPQRSTUVWXYZ123456\"").1,
   ((hardcodedSecret_amended_spec "f"
      "secret = \"ABCDEFGHIJKLMNOPQRSTUVWXYZ123456\"").2.2 _ (by decide)).1⟩

/-- Claim C9 counterexample: with 21 discovered script URLs the response's
`scripts` field carries all 21 entries — there is no cap at 20. -/
theorem scripts_field_uncapped :
    (scanScriptsField ((List.range 21).map (fun i => "s" ++ toString i))
      0).length = 21 ∧
    ¬((scanScriptsField ((List.range 21).map (fun i => "s" ++ toString i))
      0).length ≤ 20) ∧
    scanScriptsField ((List.range 21).map (fun i => "s" ++ toString i)) 0 =
      (List.range 21).map (fun i => "s" ++ toString i) := by decide

/-- Claim C9 (amended): the result's `scripts` field carries every
discovered script URL uncapped (plus an "inline-script" marker when inline
scripts exist); only the set of scripts fetched for analysis is truncated,
to the first 50. -/
theorem scripts_amended_spec (urls : List String) (n : Nat) :
    (∀ u ∈ urls, u ∈ scanScriptsField urls n) ∧
    (n = 0 → scanScriptsField urls n = urls) ∧
    (0 < n → scanScriptsField urls n = urls ++ ["inline-script"]) ∧
    (scriptsToAnalyze urls).length = min 50 urls.length ∧
    (urls.length ≤ 50 → scriptsToAnalyze urls = urls) := by
  refine ⟨?_, ?_, ?_, List.length_take 50 urls,
    fun h => List.take_of_length_le h⟩
  · intro u hu
    unfold scanScriptsField
    exact List.mem_append.mpr (Or.inl hu)
  · intro h
    subst h
    simp [scanScriptsField]
  · intro h
    unfold scanScriptsField
    rw [if_pos h]

/-- Witness for C9 (amended) at concrete inputs. -/
theorem scripts_amended_witness :
    ("a" ∈ scanScriptsField ["a", "b"] 0) ∧
    scanScriptsField ["a", "b"] 0 = ["a", "b"] ∧
    scanScriptsField ["a", "b"] 1 = ["a", "b", "inline-script"] ∧
    scriptsToAnalyze ["a", "b"] = ["a", "b"] :=
  ⟨(scripts_amended_spec ["a", "b"] 0).1 "a" (by decide),
   (scripts_amended_spec ["a", "b"] 0).2.1 rfl,
   (scripts_amended_spec ["a", "b"] 1).2.2.1 (by decide),
   (scripts_amended_spec ["a", "b"] 0).2.2.2.2 (by decide)⟩

/-- Claim C10: the blocked-address predicate fails closed — any string the
address parser rejects is reported blocked — and a literal target address
that is blocked can never produce a response from `safeFetch`. -/
theorem isPrivateIP_fail_closed :
    (∀ s : String, ipaddrParse s.data = none → isPrivateIP s = true) ∧
    (∀ (u : UrlParts) (env : FetchEnv), isIPNum u.hostname ≠ 0 →
      isPrivateIP u.hostname = true →
      ∀ st, safeFetch u env ≠ .response st) := by
  constructor
  · intro s h
    unfold isPrivateIP
    rw [h]
  · intro u env h1 h2 st heq
    unfold safeFetch at heq
    split_ifs at heq with g1 g2 g3 g4 g5 <;>
      first
        | exact FetchOutcome.noConfusion heq
        | exact g2 ⟨h1, h2⟩

/-- Witness for C10: an unparseable string is blocked, and the blocked
literal 169.254.169.254 never yields a response. -/
theorem isPrivateIP_fail_closed_witness :
    isPrivateIP "not an ip" = true ∧
    ∀ st, safeFetch ⟨"http:", "169.254.169.254"⟩ ⟨[], false, 200⟩ ≠
      .response st :=
  ⟨isPrivateIP_fail_closed.1 "not an ip" (by decide),
   isPrivateIP_fail_closed.2 ⟨"http:", "169.254.169.254"⟩ ⟨[], false, 200⟩
     (by decide) (by decide)⟩

end Brr

